import Mathlib

/-!
Verification development for the short-trade margin-call engine
(`src/short_trade_margin_call/`): a shallow embedding of the backtest state
machine, the grid-search optimizer, and the live trading loop, together with
theorems settling the behavioural claims about them.

Conventions of the embedding:
* Python floats are embedded as `ℚ` (the claims under study concern exact
  control flow and algebraic identities, not rounding);
* pandas `NaN` cells (undefined rolling-window features) are embedded as
  `Option ℚ` with `none` for `NaN`;
* the randomized order-fill simulator (`simulate_order_fill`, from
  `order_utils.py`, which is not part of the sources) is embedded as an
  oracle `fills : ℕ → ℚ → Option ℚ` giving each bar's outcome: `none` for a
  rejected order, `some p` for a fill at price `p`;
* the Sharpe-ratio statistic multiplies by a square root and is therefore
  irrational; it is embedded as an abstract parameter `sharpeFn` over the
  equity curve (no claim constrains its value).
-/

set_option maxHeartbeats 1000000

namespace STMC

/-- One OHLC bar of the input series (a row of the fetched dataframe).
`time` embeds the dataframe index label (`row.name`); per the data contract
(§6 of the design) the series is time-ascending, so `sort_index()` is the
identity on it. -/
structure Bar where
  time : ℕ
  Open : ℚ
  High : ℚ
  Low : ℚ
  Close : ℚ
  deriving DecidableEq, Repr

instance : Inhabited Bar := ⟨⟨0, 0, 0, 0, 0⟩⟩

/-- The configuration fields of `TraderConfig` (`config.py`) that the
simulation and live engines read.  Spread/slippage/reject-probability/latency
only feed the randomized fill simulator, which is embedded as an oracle, so
they are not repeated here. -/
structure TraderConfig where
  starting_balance : ℚ
  bybit_fee : ℚ
  agg_minutes : ℕ
  maintenance_margin_rate : ℚ
  take_profit_pct : ℚ
  exit_type_candidates : List String
  highest_high_lookback_range : List ℕ
  take_profit_pct_candidates : List ℚ
  risk_fraction_candidates : List ℚ
  desired_leverage : ℕ
  bybit_max_leverage : ℕ
  bybit_leverage_tiers : List (ℚ × ℕ)
  min_notional : ℚ
  min_history_padding : ℕ
  deriving DecidableEq, Repr

/-- The default values of `TraderConfig` from `config.py` (decimal literals
written as exact rationals). -/
def defaultConfig : TraderConfig where
  starting_balance := 472
  bybit_fee := 1/1000
  agg_minutes := 5
  maintenance_margin_rate := 1/250
  take_profit_pct := 11/2500
  exit_type_candidates := ["highest_low", "lowest_high"]
  highest_high_lookback_range := [10, 20, 30, 40, 50, 60, 70]
  take_profit_pct_candidates := [11/5000, 11/2500, 3/500, 1/125]
  risk_fraction_candidates := [1/2, 7/10, 17/20, 19/20]
  desired_leverage := 3
  bybit_max_leverage := 50
  bybit_leverage_tiers := [(50000, 50), (100000, 25), (250000, 10)]
  min_notional := 5
  min_history_padding := 200

/-- `StrategyParams` from `backtest_engine.py`: one point of the search
space. -/
structure StrategyParams where
  highest_high_lookback : ℕ
  exit_type : String
  risk_fraction : ℚ
  take_profit_pct : ℚ
  deriving DecidableEq, Repr

/-- `BacktestMetrics` from `backtest_engine.py`, fields in source order.
`rr_ratio` is `Option ℚ` for Python's `float | None`. -/
structure BacktestMetrics where
  pnl_pct : ℚ
  pnl_value : ℚ
  final_balance : ℚ
  avg_win : ℚ
  avg_loss : ℚ
  win_rate : ℚ
  rr_ratio : Option ℚ
  sharpe : ℚ
  drawdown : ℚ
  wins : ℕ
  losses : ℕ
  deriving DecidableEq, Repr

/-- Modelled from the spec: `bybit_fee_fn` lives in `order_utils.py`, which is
not among the sources; §4.1 specifies `fee(notional, feeRate) =
notional * feeRate` with the fee rate taken from the configuration. -/
def bybit_fee_fn (notional : ℚ) (cfg : TraderConfig) : ℚ :=
  notional * cfg.bybit_fee

/-- Modelled from the spec: `resolve_leverage` lives in `order_utils.py`,
which is not among the sources.  §4.2: compute the implied notional at the
desired leverage; find the narrowest tier whose threshold is ≥ that notional;
the effective leverage is the minimum of the desired leverage, that tier's
max leverage and the configured hard cap; if the notional exceeds every tier,
the (most conservative) last tier's cap is used. -/
def resolve_leverage (margin : ℚ) (desired : ℕ) (cfg : TraderConfig) : ℕ :=
  let notional := margin * (desired : ℚ)
  match cfg.bybit_leverage_tiers.find? (fun t => notional ≤ t.1) with
  | some t => min desired (min t.2 cfg.bybit_max_leverage)
  | none =>
    match cfg.bybit_leverage_tiers.getLast? with
    | some t => t.2
    | none => min desired cfg.bybit_max_leverage

/-- Modelled from the spec: `calc_liq_price_short` lives in `order_utils.py`,
which is not among the sources.  §4.3:
`liq_price = entry_price * (1 + 1/leverage - maintenance_margin_rate)`; the
callers pass the leverage as a Python `int`. -/
def calc_liq_price_short (entry_price : ℚ) (leverage : ℤ) (mmr : ℚ) : ℚ :=
  entry_price * (1 + 1 / (leverage : ℚ) - mmr)

/-- Maximum of a list of rationals (`none` on the empty list). -/
def listMax : List ℚ → Option ℚ
  | [] => none
  | x :: xs => some (xs.foldl max x)

/-- Minimum of a list of rationals (`none` on the empty list). -/
def listMin : List ℚ → Option ℚ
  | [] => none
  | x :: xs => some (xs.foldl min x)

/-- Sum of a list of rationals. -/
def ratSum (l : List ℚ) : ℚ := l.foldl (· + ·) 0

/-- `series.rolling(lb).max().shift(1)` evaluated at position `i`: the max of
the `lb` entries at positions `i - lb, …, i - 1`, `none` (pandas `NaN`) when
the window is not fully formed. -/
def prevRollMax (xs : List ℚ) (lb i : ℕ) : Option ℚ :=
  if lb ≤ i ∧ 1 ≤ lb then listMax ((xs.drop (i - lb)).take lb) else none

/-- `series.rolling(lb).min().shift(1)` evaluated at position `i`. -/
def prevRollMin (xs : List ℚ) (lb i : ℕ) : Option ℚ :=
  if lb ≤ i ∧ 1 ≤ lb then listMin ((xs.drop (i - lb)).take lb) else none

/-- One row of the feature-augmented dataframe built at the top of
`BacktestEngine._run_backtest` (and, identically, of
`LiveTradingEngine._prepare_live_dataframe`): the OHLC columns plus
`prev_highest_high`, `highest_low`, `lowest_high`, `entry_signal` and
`tradable`.  `idx` is the positional index of the row, used to address the
fill oracle. -/
structure FeatRow where
  idx : ℕ
  time : ℕ
  Open : ℚ
  High : ℚ
  Low : ℚ
  Close : ℚ
  prev_highest_high : Option ℚ
  highest_low : Option ℚ
  lowest_high : Option ℚ
  entry_signal : Bool
  tradable : Bool
  deriving DecidableEq, Repr

instance : Inhabited FeatRow := ⟨⟨0, 0, 0, 0, 0, 0, none, none, none, false, true⟩⟩

/-- The feature row at position `i`:
`prev_highest_high = High.rolling(lb).max().shift(1)`,
`highest_low = Low.rolling(lb).max().shift(1)`,
`lowest_high = High.rolling(lb).min().shift(1)`,
`entry_signal = (High >= prev_highest_high) & (Close < Open)` (a comparison
against `NaN` is `False` in pandas), `tradable = entry_signal.notna()` which
is always `True` for a boolean series. -/
def mkFeatRow (bars : List Bar) (lb i : ℕ) : FeatRow :=
  let b := bars.getD i default
  let prevHH := prevRollMax (bars.map Bar.High) lb i
  { idx := i
    time := b.time
    Open := b.Open
    High := b.High
    Low := b.Low
    Close := b.Close
    prev_highest_high := prevHH
    highest_low := prevRollMax (bars.map Bar.Low) lb i
    lowest_high := prevRollMin (bars.map Bar.High) lb i
    entry_signal := (match prevHH with
      | some p => decide (p ≤ b.High)
      | none => false) && decide (b.Close < b.Open)
    tradable := true }

/-- All feature rows of the series. -/
def featRows (bars : List Bar) (lb : ℕ) : List FeatRow :=
  (List.range bars.length).map (mkFeatRow bars lb)

/-- `BacktestEngine._exit_target_for_row`: the structural exit target for the
configured exit type, `none` for pandas `NaN`. -/
def exitTargetForRow (row : FeatRow) (exit_type : String) : Option ℚ :=
  if exit_type = "highest_low" then row.highest_low
  else if exit_type = "lowest_high" then row.lowest_high
  else if exit_type = "midpoint" then
    match row.highest_low, row.lowest_high with
    | some a, some b => some ((a + b) / 2)
    | _, _ => none
  else none

/-- A trade-log entry appended by `BacktestEngine._run_backtest` when
`capture_trades` is set. -/
structure Trade where
  entry_time : ℕ
  exit_time : ℕ
  side : String
  entry_price : ℚ
  exit_price : ℚ
  pnl_value : ℚ
  pnl_pct : ℚ
  qty : ℚ
  exit_type : String
  fill_status : Option String
  deriving DecidableEq, Repr

/-- The mutable loop state of `BacktestEngine._run_backtest`, one field per
Python local. -/
structure BTState where
  balance : ℚ
  equityCurve : List ℚ
  positionOpen : Bool
  entryPrice : Option ℚ
  entryTime : Option ℕ
  liqPrice : Option ℚ
  qty : ℚ
  marginUsed : ℚ
  exitTarget : Option ℚ
  entryFillStatus : Option String
  wins : ℕ
  losses : ℕ
  winSizes : List ℚ
  lossSizes : List ℚ
  trades : List Trade
  deriving DecidableEq, Repr

/-- The loop state just before the first bar. -/
def initState (cfg : TraderConfig) : BTState where
  balance := cfg.starting_balance
  equityCurve := []
  positionOpen := false
  entryPrice := none
  entryTime := none
  liqPrice := none
  qty := 0
  marginUsed := 0
  exitTarget := none
  entryFillStatus := none
  wins := 0
  losses := 0
  winSizes := []
  lossSizes := []
  trades := []

/-- The `equity_curve.append(balance); continue` paths of the entry block
(rejected fill, zero clamped risk fraction, sub-minimum margin or notional). -/
def abortBar (st : BTState) : BTState :=
  { st with equityCurve := st.equityCurve ++ [st.balance] }

/-- Clearing of every position-describing local when a position closes
(return to FLAT). -/
def closePosition (st : BTState) : BTState :=
  { st with positionOpen := false, entryPrice := none, entryTime := none,
            liqPrice := none, exitTarget := none, qty := 0, marginUsed := 0,
            entryFillStatus := none }

/-- The exit-evaluation block of `BacktestEngine._run_backtest`
(`if position_open and entry_price is not None and liq_price is not None`):
the margin-call check is evaluated first, take-profit in the `elif`. -/
def exitPhase (cfg : TraderConfig) (params : StrategyParams) (capture : Bool)
    (row : FeatRow) (st : BTState) : BTState :=
  if st.positionOpen = true ∧ st.entryPrice.isSome = true ∧ st.liqPrice.isSome = true then
    let entry_price := st.entryPrice.getD 0
    let liq_price := st.liqPrice.getD 0
    if liq_price ≤ row.High then
      let net_pnl := -st.marginUsed
      closePosition
        { st with balance := max 0 st.balance,
                  losses := st.losses + 1,
                  lossSizes := st.lossSizes ++ [net_pnl / cfg.starting_balance * 100],
                  trades := st.trades ++
                    (if capture = true ∧ st.entryTime.isSome = true then
                      [{ entry_time := st.entryTime.getD 0, exit_time := row.time,
                         side := "SHORT", entry_price := entry_price,
                         exit_price := liq_price, pnl_value := net_pnl,
                         pnl_pct := net_pnl / cfg.starting_balance * 100,
                         qty := st.qty, exit_type := "margin_call",
                         fill_status := st.entryFillStatus }]
                    else []) }
    else if st.exitTarget.isSome = true ∧ row.Low ≤ st.exitTarget.getD 0 then
      let exit_price := if st.exitTarget.isSome = true then st.exitTarget.getD 0 else row.Close
      let exit_fee := bybit_fee_fn (st.qty * exit_price) cfg
      let gross := (entry_price - exit_price) * st.qty
      let net_pnl := gross - exit_fee
      closePosition
        { st with balance := st.balance + st.marginUsed + net_pnl,
                  wins := if 0 < net_pnl then st.wins + 1 else st.wins,
                  losses := if 0 < net_pnl then st.losses else st.losses + 1,
                  winSizes := if 0 < net_pnl
                    then st.winSizes ++ [net_pnl / cfg.starting_balance * 100]
                    else st.winSizes,
                  lossSizes := if 0 < net_pnl
                    then st.lossSizes
                    else st.lossSizes ++ [net_pnl / cfg.starting_balance * 100],
                  trades := st.trades ++
                    (if capture = true ∧ st.entryTime.isSome = true then
                      [{ entry_time := st.entryTime.getD 0, exit_time := row.time,
                         side := "SHORT", entry_price := entry_price,
                         exit_price := exit_price, pnl_value := net_pnl,
                         pnl_pct := net_pnl / cfg.starting_balance * 100,
                         qty := st.qty, exit_type := params.exit_type,
                         fill_status := st.entryFillStatus }]
                    else []) }
    else st
  else st

/-- The per-bar equity-curve update: balance, plus margin and unrealized PnL
at the bar close when a position is open, floored at zero. -/
def equityPhase (row : FeatRow) (st : BTState) : BTState :=
  let equity :=
    if st.positionOpen = true ∧ st.entryPrice.isSome = true then
      st.balance + st.marginUsed + (st.entryPrice.getD 0 - row.Close) * st.qty
    else st.balance
  { st with equityCurve := st.equityCurve ++ [max equity 0] }

/-- The entry-evaluation block of `BacktestEngine._run_backtest`.  The
boolean result is `true` on the `continue` paths (non-fill, zero clamped
risk fraction, sub-minimum margin, sub-minimum notional), which skip the
exit evaluation and the equity update for the bar. -/
def entryPhase (cfg : TraderConfig) (params : StrategyParams)
    (fills : ℕ → ℚ → Option ℚ) (st : BTState) (row : FeatRow) :
    BTState × Bool :=
  if st.positionOpen = false ∧ 0 < st.balance ∧ (row.entry_signal && row.tradable) = true then
    match fills row.idx row.Close with
    | none => (abortBar st, true)
    | some fill_price =>
      let risk_fraction := min (max params.risk_fraction 0) 1
      if risk_fraction = 0 then (abortBar st, true)
      else
        let margin_used := st.balance * risk_fraction
        if margin_used < cfg.min_notional then (abortBar st, true)
        else
          let leverage_used := resolve_leverage margin_used cfg.desired_leverage cfg
          let trade_value := margin_used * (leverage_used : ℚ)
          if trade_value < cfg.min_notional then (abortBar st, true)
          else
            let entry_price := fill_price
            let qty := trade_value / entry_price
            let entry_fee := bybit_fee_fn trade_value cfg
            ({ st with balance := st.balance - (entry_fee + margin_used),
                       positionOpen := true,
                       entryPrice := some entry_price,
                       entryTime := some row.time,
                       liqPrice := some (calc_liq_price_short entry_price
                         (leverage_used : ℤ) cfg.maintenance_margin_rate),
                       exitTarget := some (match exitTargetForRow row params.exit_type with
                         | some t => t
                         | none => entry_price * (1 - params.take_profit_pct)),
                       qty := qty,
                       marginUsed := margin_used,
                       entryFillStatus := some "filled" }, false)
  else (st, false)

/-- One iteration of the per-bar loop of `BacktestEngine._run_backtest`:
entry evaluation (whose `continue` paths end the bar early), then exit
evaluation, then the equity-curve update. -/
def stepBar (cfg : TraderConfig) (params : StrategyParams)
    (fills : ℕ → ℚ → Option ℚ) (capture : Bool) (st : BTState) (row : FeatRow) :
    BTState :=
  let p := entryPhase cfg params fills st row
  if p.2 = true then p.1
  else equityPhase row (exitPhase cfg params capture row p.1)

/-- The loop of `_run_backtest` over the post-warmup rows. -/
def runRows (cfg : TraderConfig) (params : StrategyParams)
    (fills : ℕ → ℚ → Option ℚ) (capture : Bool) :
    BTState → List FeatRow → BTState
  | st, [] => st
  | st, r :: rs => runRows cfg params fills capture (stepBar cfg params fills capture st r) rs

/-- The final loop state of `_run_backtest`: the feature rows are computed on
the whole series and the loop starts at `warmup = lookback + 1`. -/
def run_backtest_state (cfg : TraderConfig) (params : StrategyParams)
    (fills : ℕ → ℚ → Option ℚ) (capture : Bool) (bars : List Bar) : BTState :=
  runRows cfg params fills capture (initState cfg)
    ((featRows bars params.highest_high_lookback).drop (params.highest_high_lookback + 1))

/-- The end-of-run metrics computation of `_run_backtest`, including the
empty-equity-curve early return
`BacktestMetrics(0, 0, starting_balance, 0, 0, 0, None, 0, 0, 0, 0)`.
`sharpeFn` abstracts the Sharpe statistic (mean/stdev of bar-over-bar
returns times an irrational annualization factor), which no claim
constrains. -/
def metricsOf (cfg : TraderConfig) (sharpeFn : List ℚ → ℚ) (st : BTState) :
    BacktestMetrics :=
  if st.equityCurve = [] then
    { pnl_pct := 0, pnl_value := 0, final_balance := cfg.starting_balance,
      avg_win := 0, avg_loss := 0, win_rate := 0, rr_ratio := none,
      sharpe := 0, drawdown := 0, wins := 0, losses := 0 }
  else
    let final_balance := st.equityCurve.getLast?.getD 0
    let pnl_value := final_balance - cfg.starting_balance
    let pnl_pct := pnl_value / cfg.starting_balance * 100
    let avg_win := if st.winSizes = [] then 0 else ratSum st.winSizes / (st.winSizes.length : ℚ)
    let avg_loss := if st.lossSizes = [] then 0 else ratSum st.lossSizes / (st.lossSizes.length : ℚ)
    let win_rate := if 0 < st.wins + st.losses
      then (st.wins : ℚ) / ((st.wins : ℚ) + (st.losses : ℚ)) * 100 else 0
    let rr_ratio := if avg_loss ≠ 0 then some (avg_win / |avg_loss|) else none
    { pnl_pct := pnl_pct, pnl_value := pnl_value, final_balance := final_balance,
      avg_win := avg_win, avg_loss := avg_loss, win_rate := win_rate,
      rr_ratio := rr_ratio, sharpe := sharpeFn st.equityCurve, drawdown := 0,
      wins := st.wins, losses := st.losses }

/-- `BacktestEngine._run_backtest` end to end: final metrics of one run. -/
def run_backtest (cfg : TraderConfig) (params : StrategyParams)
    (fills : ℕ → ℚ → Option ℚ) (sharpeFn : List ℚ → ℚ) (capture : Bool)
    (bars : List Bar) : BacktestMetrics :=
  metricsOf cfg sharpeFn (run_backtest_state cfg params fills capture bars)

/-- `BacktestEngine.run_backtest_with_trades`: metrics plus the captured
trade list (the `_last_trades` side channel). -/
def run_backtest_with_trades (cfg : TraderConfig) (params : StrategyParams)
    (fills : ℕ → ℚ → Option ℚ) (sharpeFn : List ℚ → ℚ) (bars : List Bar) :
    BacktestMetrics × List Trade :=
  let st := run_backtest_state cfg params fills true bars
  (metricsOf cfg sharpeFn st, st.trades)

/-- One row of the grid-search result dataframe: the parameter tuple's
fields together with the metrics of its run. -/
structure ResultRow where
  params : StrategyParams
  metrics : BacktestMetrics
  deriving DecidableEq, Repr

/-- `BacktestEngine.grid_search_with_progress`: `itertools.product` of
lookback range × exit types × risk fractions × take-profit percents, the
leftmost factor being the outermost loop, one backtest (without trade
capture) and one result row per tuple. -/
def grid_search_with_progress (cfg : TraderConfig)
    (fills : ℕ → ℚ → Option ℚ) (sharpeFn : List ℚ → ℚ) (bars : List Bar) :
    List ResultRow :=
  cfg.highest_high_lookback_range.flatMap fun hh_lb =>
    cfg.exit_type_candidates.flatMap fun exit_type =>
      cfg.risk_fraction_candidates.flatMap fun risk_frac =>
        cfg.take_profit_pct_candidates.map fun tp_pct =>
          let params : StrategyParams :=
            { highest_high_lookback := hh_lb, exit_type := exit_type,
              risk_fraction := risk_frac, take_profit_pct := tp_pct }
          { params := params,
            metrics := run_backtest cfg params fills sharpeFn false bars }

/-- Insertion of a row into a pnl-percent-descending list. -/
def ordInsertRow (a : ResultRow) : List ResultRow → List ResultRow
  | [] => [a]
  | b :: l =>
    if b.metrics.pnl_pct ≤ a.metrics.pnl_pct then a :: b :: l
    else b :: ordInsertRow a l

/-- A pnl-percent-descending reordering of the result rows, embedding
`dfres.sort_values("pnl_pct", ascending=False)`.  The source leaves the
sort kernel at pandas' default `kind="quicksort"` (numpy's introsort),
which is not stable, so the program guarantees only a descending
reordering and leaves the relative order of rows with equal `pnl_pct`
implementation-defined; the insertion sort used here is one admissible
kernel, and no theorem in this development depends on its tie order. -/
def sortRowsDesc : List ResultRow → List ResultRow
  | [] => []
  | a :: l => ordInsertRow a (sortRowsDesc l)

/-- `dfres.sort_values("pnl_pct", ascending=False).head(1)` from
`MainEngine.run_backtests`, as the selected best row (`none` on an empty
result set, where the subsequent `iloc[0]` would raise).  Because the
underlying sort's tie order is implementation-defined, which of several
rows tied at the maximal `pnl_pct` is returned is likewise not a program
guarantee; theorems below use `selectBest` only through hypotheses of the
form `selectBest rows = some best`. -/
def selectBest (rows : List ResultRow) : Option ResultRow :=
  (sortRowsDesc rows).head?

/-- A Python value passed positionally to a dataclass constructor. -/
inductive PyVal where
  | pyInt (n : ℤ)
  | pyStr (s : String)
  | pyFloat (q : ℚ)
  deriving DecidableEq, Repr

/-- The runtime errors the `MainEngine` paths can raise. -/
inductive PyError where
  | valueError (msg : String)
  | typeError (msg : String)
  | indexError (msg : String)
  deriving DecidableEq, Repr

/-- Calling the `StrategyParams` dataclass constructor with a list of
positional arguments.  The dataclass declares four fields
(`highest_high_lookback`, `exit_type`, `risk_fraction`, `take_profit_pct`)
with no defaults, so any other arity raises `TypeError` at the call; Python
performs no runtime type check on the field values, so this typed embedding
coerces each argument to the field's type. -/
def strategyParamsCall : List PyVal → Except PyError StrategyParams
  | [a, b, c, d] =>
    let toRat : PyVal → ℚ
      | .pyInt n => (n : ℚ)
      | .pyFloat q => q
      | .pyStr _ => 0
    let toStr : PyVal → String
      | .pyStr s => s
      | _ => ""
    .ok { highest_high_lookback := (toRat a).floor.toNat, exit_type := toStr b,
          risk_fraction := toRat c, take_profit_pct := toRat d }
  | _ =>
    .error (.typeError
      "StrategyParams.__init__ takes 4 required positional arguments")

/-- Maximum of a list of naturals, `none` on the empty list (Python's
`max()` raises there). -/
def listMaxNat : List ℕ → Option ℕ
  | [] => none
  | x :: xs => some (xs.foldl max x)

/-- The observable outcome of `MainEngine.run_backtests`: whether the
best-parameter artifact and the queue item were persisted (the writes
themselves are file I/O, out of scope; what was written is the best row),
and the value returned or the error raised. -/
structure RunBacktestsResult where
  saved : Option ResultRow
  queued : Option ResultRow
  outcome : Except PyError (ResultRow × BacktestMetrics × List Trade)
  deriving Repr

/-- `MainEngine.run_backtests`: fetch (the fetched series is the `bars`
input), check `len(df) >= max(lookback_range) + min_history_padding`,
grid-search, select the best row, persist the artifact and the queue item,
then replay the best parameters — a call of `StrategyParams` with only two
positional arguments. -/
def run_backtests (cfg : TraderConfig) (fills : ℕ → ℚ → Option ℚ)
    (sharpeFn : List ℚ → ℚ) (bars : List Bar) : RunBacktestsResult :=
  match listMaxNat cfg.highest_high_lookback_range with
  | none => { saved := none, queued := none,
              outcome := .error (.valueError "max() arg is an empty sequence") }
  | some maxLb =>
    let required_bars := maxLb + cfg.min_history_padding
    if bars.length < required_bars then
      { saved := none, queued := none,
        outcome := .error (.valueError "Not enough candles fetched for optimizer warmup") }
    else
      let dfres := grid_search_with_progress cfg fills sharpeFn bars
      match selectBest dfres with
      | none => { saved := none, queued := none,
                  outcome := .error (.indexError "single positional indexer is out-of-bounds") }
      | some best =>
        match strategyParamsCall
            [.pyInt (best.params.highest_high_lookback : ℤ),
             .pyStr best.params.exit_type] with
        | .error e => { saved := some best, queued := some best, outcome := .error e }
        | .ok p =>
          let mt := run_backtest_with_trades cfg p fills sharpeFn bars
          { saved := some best, queued := some best, outcome := .ok (best, mt.1, mt.2) }

/-- `MainEngine.run`: `run_backtests`, then (were it reached) a second
two-argument `StrategyParams` call and the live-engine launch.  An error
raised inside `run_backtests` propagates out of `run`. -/
def mainEngineRun (cfg : TraderConfig) (fills : ℕ → ℚ → Option ℚ)
    (sharpeFn : List ℚ → ℚ) (bars : List Bar) : Except PyError StrategyParams :=
  match (run_backtests cfg fills sharpeFn bars).outcome with
  | .error e => .error e
  | .ok (best, _, _) =>
    strategyParamsCall
      [.pyInt (best.params.highest_high_lookback : ℤ), .pyStr best.params.exit_type]

/-- Modelled from the spec: `PositionState` lives in `order_utils.py`, which
is not among the sources; §3 of the design lists its fields (side, entry
price, entry bar timestamp, quantity, margin used, resolved leverage,
liquidation price, exit type, exit target), and `main_engine.py` reads
exactly these. -/
structure PositionState where
  side : String
  entry_price : ℚ
  entry_bar_time : ℕ
  qty : ℚ
  margin_used : ℚ
  leverage : ℚ
  liq_price : Option ℚ
  exit_type : String
  exit_target : Option ℚ
  deriving DecidableEq, Repr

/-- One entry of `LiveTradingEngine.tradelog`, fields as appended by
`_handle_exit`. -/
structure LiveTradeRecord where
  entry_time : ℕ
  exit_time : ℕ
  side : String
  entry_price : ℚ
  exit_price : ℚ
  qty : ℚ
  pnl : ℚ
  status : String
  equity : ℚ
  margin_used : ℚ
  exit_type : String
  deriving DecidableEq, Repr

/-- The mutable state of `LiveTradingEngine`. -/
structure LiveState where
  position : Option PositionState
  equity : ℚ
  tradelog : List LiveTradeRecord
  lastSignalTs : Option ℕ
  deriving DecidableEq, Repr

/-- Python's `a or b` on an optional float: `b` when `a` is `None` or `0.0`
(both falsy), else the value of `a`. -/
def pyOrQ (a : Option ℚ) (b : ℚ) : ℚ :=
  match a with
  | none => b
  | some x => if x = 0 then b else x

/-- `LiveTradingEngine._handle_exit`: with a position open, the margin-call
check (`High >= (liq_price or 0)`) is evaluated first; otherwise the
take-profit branch realizes at the exit target (falling back to the bar
close when the target is `None` or `0.0`, Python truthiness) and credits
equity; the margin-call branch loses the posted margin and does not touch
equity; either way one trade record is appended and the position is
cleared. -/
def handle_exit (cfg : TraderConfig) (row : FeatRow) (st : LiveState) : LiveState :=
  match st.position with
  | none => st
  | some pos =>
    let margin_call := pos.liq_price.getD 0 ≤ row.High
    let tp_hit := pos.exit_target.isSome = true ∧ row.Low ≤ pos.exit_target.getD 0
    if ¬(margin_call ∨ tp_hit) then st
    else
      let record (exit_price net_pnl : ℚ) (status : String) (equity : ℚ) :
          LiveTradeRecord :=
        { entry_time := pos.entry_bar_time, exit_time := row.time,
          side := pos.side.toUpper, entry_price := pos.entry_price,
          exit_price := exit_price, qty := pos.qty, pnl := net_pnl,
          status := status, equity := equity, margin_used := pos.margin_used,
          exit_type := pos.exit_type }
      if margin_call then
        let exit_price := pyOrQ pos.liq_price row.High
        let net_pnl := -pos.margin_used
        { st with position := none,
                  tradelog := st.tradelog ++ [record exit_price net_pnl "MARGIN CALL" st.equity] }
      else
        let exit_price :=
          if tp_hit ∧ (pyOrQ pos.exit_target 0 ≠ 0) then pos.exit_target.getD 0 else row.Close
        let gross := (pos.entry_price - exit_price) * pos.qty
        let exit_fee := bybit_fee_fn (pos.qty * exit_price) cfg
        let net_pnl := gross - exit_fee
        let equity := st.equity + pos.margin_used + net_pnl
        { st with position := none, equity := equity,
                  tradelog := st.tradelog ++ [record exit_price net_pnl "TARGET" equity] }

/-- The outcome of the live entry attempt
(`SellOrderEngine.should_enter` / `open_position`).  `sell_order_engine.py`
is not among the sources, so the attempt is an oracle input: `noSignal`
embeds `should_enter` returning false; `rejected` a `"rejected"` /
`"min_notional_not_met"` status or a missing position; `insufficientFunds`
the `"insufficient_funds"` status; `opened` a successful simulated fill with
its entry fee and margin. -/
inductive EntryAttempt where
  | noSignal
  | rejected
  | insufficientFunds
  | opened (pos : PositionState) (entry_fee : ℚ) (margin_used : ℚ)
  deriving DecidableEq, Repr

/-- Truncation of a positive rational leverage by Python's `int()`. -/
def pyInt (q : ℚ) : ℤ := if 0 ≤ q then q.floor else q.ceil

/-- One iteration of `LiveTradingEngine.run` (the body of the polling loop,
after the data fetch): the waiting guard on the bar count, the NO-EDGE guard
on the optimizer's reported total PnL (`continue`, skipping the rest of the
iteration), the entry block gated on having no position and a fresh signal
timestamp, and then `_handle_exit` on the same row. -/
def liveIteration (cfg : TraderConfig) (params : StrategyParams) (totalPnl : ℚ)
    (dataLen : ℕ) (row : FeatRow) (attempt : EntryAttempt) (st : LiveState) :
    LiveState :=
  if dataLen < params.highest_high_lookback + cfg.min_history_padding then st
  else if totalPnl ≤ 0 then st
  else
    let st1 :=
      if st.position.isNone = true ∧ ¬(attempt = .noSignal) ∧ ¬(some row.time = st.lastSignalTs) then
        match attempt with
        | .opened pos0 entry_fee margin_used =>
          let target :=
            match exitTargetForRow row params.exit_type with
            | some t => t
            | none => pos0.entry_price * (1 - cfg.take_profit_pct)
          let pos :=
            { pos0 with exit_type := params.exit_type,
                        exit_target := some target,
                        liq_price := some (calc_liq_price_short pos0.entry_price
                          (pyInt pos0.leverage) cfg.maintenance_margin_rate) }
          { st with equity := st.equity - (entry_fee + margin_used),
                    position := some pos,
                    lastSignalTs := some row.time }
        | _ => st
      else st
    handle_exit cfg row st1

/-- Sum of the recorded trades' net PnL values. -/
def tradePnl (st : BTState) : ℚ := ratSum (st.trades.map Trade.pnl_value)

/-- Sum of the recorded trades' entry notionals (quantity × entry price),
from which each trade's entry fee is `bybit_fee` times this amount. -/
def closedNotional (st : BTState) : ℚ :=
  ratSum (st.trades.map fun t => t.qty * t.entry_price)

/-- The open position's entry notional, zero when flat. -/
def openNotional (st : BTState) : ℚ :=
  if st.positionOpen = true ∧ st.entryPrice.isSome = true
  then st.qty * st.entryPrice.getD 0 else 0

/-- The margin posted for the open position, zero when flat. -/
def openMargin (st : BTState) : ℚ :=
  if st.positionOpen = true ∧ st.entryPrice.isSome = true then st.marginUsed else 0

/-- The open position's unrealized PnL marked at a close price, zero when
flat. -/
def unrealizedPnl (st : BTState) (close : ℚ) : ℚ :=
  if st.positionOpen = true ∧ st.entryPrice.isSome = true
  then (st.entryPrice.getD 0 - close) * st.qty else 0

/-- The pre-floor equity the loop computes at the end of a bar: balance,
plus margin and unrealized PnL when a position is open. -/
def rawEquity (st : BTState) (close : ℚ) : ℚ :=
  st.balance + openMargin st + unrealizedPnl st close

/-- The conserved accounting quantity of the loop: cash plus posted margin,
minus realized trade PnL, plus all entry fees paid (each entry fee is
`bybit_fee` times the trade's entry notional).  Every bar leaves it equal to
the starting balance as long as the `max(0.0, balance)` reset in the
margin-call branch never truncates. -/
def ledger (cfg : TraderConfig) (st : BTState) : ℚ :=
  st.balance + openMargin st - tradePnl st
    + cfg.bybit_fee * (closedNotional st + openNotional st)

/-- Structural well-formedness of the loop state: an open position carries
its entry price, entry time and liquidation price. -/
def WFState (st : BTState) : Prop :=
  st.positionOpen = true →
    st.entryPrice.isSome = true ∧ st.entryTime.isSome = true

instance (st : BTState) : Decidable (WFState st) := by
  unfold WFState; infer_instance

/-- No-truncation sentinel for a run: at every bar, the balance entering the
exit evaluation (after any same-bar entry debit) is nonnegative, so the
`balance = max(0.0, balance)` reset in the margin-call branch and the
`max(equity, 0)` floor of the equity curve never alter a value. -/
def midBalNonneg (cfg : TraderConfig) (params : StrategyParams)
    (fills : ℕ → ℚ → Option ℚ) (capture : Bool) :
    BTState → List FeatRow → Bool
  | st, [] => decide (0 ≤ st.balance)
  | st, r :: rs =>
    decide (0 ≤ (entryPhase cfg params fills st r).1.balance) &&
      midBalNonneg cfg params fills capture (stepBar cfg params fills capture st r) rs

/-- Concrete small configuration used by the closed witness statements. -/
def fixCfg : TraderConfig where
  starting_balance := 100
  bybit_fee := 1/1000
  agg_minutes := 5
  maintenance_margin_rate := 1/250
  take_profit_pct := 11/2500
  exit_type_candidates := ["highest_low"]
  highest_high_lookback_range := [1]
  take_profit_pct_candidates := [1/100]
  risk_fraction_candidates := [1/2]
  desired_leverage := 3
  bybit_max_leverage := 50
  bybit_leverage_tiers := [(50000, 50), (100000, 25), (250000, 10)]
  min_notional := 5
  min_history_padding := 0

/-- Concrete strategy parameters used by the closed witness statements. -/
def fixParams : StrategyParams where
  highest_high_lookback := 1
  exit_type := "highest_low"
  risk_fraction := 1/2
  take_profit_pct := 1/100

/-- A three-bar series whose last bar fires the entry signal (its high
reaches the prior bar's high, it closes below its open) and whose low
already touches the trailing highest-low target on the entry bar. -/
def fixBars : List Bar :=
  [⟨0, 10, 10, 10, 10⟩, ⟨1, 10, 10, 9, 10⟩, ⟨2, 10, 21/2, 9, 19/2⟩]

/-- A deterministic fill oracle: every order fills at the bar close (orders
at a zero reference price are rejected, so fill prices are never zero). -/
def fixFills : ℕ → ℚ → Option ℚ := fun _ c => if c = 0 then none else some c

/-- A concrete open live short position with liquidation price 12 and exit
target 9. -/
def fixPos : PositionState where
  side := "short"
  entry_price := 10
  entry_bar_time := 7
  qty := 15
  margin_used := 50
  leverage := 3
  liq_price := some 12
  exit_type := "highest_low"
  exit_target := some 9

/-- A live-engine state holding `fixPos`. -/
def fixLive : LiveState := ⟨some fixPos, 50, [], none⟩

/-- A polled bar whose high (14) reaches the liquidation price of `fixPos`
but whose low (12) stays above its exit target. -/
def fixRowMC : FeatRow := ⟨9, 9, 13, 14, 12, 13, some 12, some 11, some 10, false, true⟩

/-- A polled bar whose high (14) reaches the liquidation price of `fixPos`
and whose low (8) also reaches its exit target: both exit conditions hold. -/
def fixRowBoth : FeatRow := ⟨9, 9, 13, 14, 8, 13, some 12, some 11, some 10, false, true⟩

/-- A concrete open backtest loop state: short from price 10, margin 50,
liquidation price 12, exit target 9. -/
def fixBT : BTState where
  balance := 40
  equityCurve := []
  positionOpen := true
  entryPrice := some 10
  entryTime := some 5
  liqPrice := some 12
  qty := 15
  marginUsed := 50
  exitTarget := some 9
  entryFillStatus := some "filled"
  wins := 0
  losses := 0
  winSizes := []
  lossSizes := []
  trades := []

/-! Theorems settling the claims. -/

/-- With a position open, the entry block does nothing and does not
`continue`. -/
theorem entryPhase_open (cfg : TraderConfig) (params : StrategyParams)
    (fills : ℕ → ℚ → Option ℚ) (st : BTState) (row : FeatRow)
    (h : st.positionOpen = true) :
    entryPhase cfg params fills st row = (st, false) := by
  simp [entryPhase, h]

/-- With a position open, a bar is exit evaluation followed by the equity
update. -/
theorem stepBar_open (cfg : TraderConfig) (params : StrategyParams)
    (fills : ℕ → ℚ → Option ℚ) (capture : Bool) (st : BTState) (row : FeatRow)
    (h : st.positionOpen = true) :
    stepBar cfg params fills capture st row
      = equityPhase row (exitPhase cfg params capture row st) := by
  simp [stepBar, entryPhase_open cfg params fills st row h]

/-- The margin-call branch of the exit evaluation, fully resolved: whenever
the bar high reaches the liquidation price the position closes as a loss of
the posted margin, regardless of the take-profit condition. -/
theorem exitPhase_margin_call (cfg : TraderConfig) (params : StrategyParams)
    (capture : Bool) (row : FeatRow) (st : BTState)
    (hopen : st.positionOpen = true) (hep : st.entryPrice.isSome = true)
    (hlq : st.liqPrice.isSome = true) (hmc : st.liqPrice.getD 0 ≤ row.High) :
    exitPhase cfg params capture row st =
      closePosition
        { st with balance := max 0 st.balance,
                  losses := st.losses + 1,
                  lossSizes := st.lossSizes ++ [-st.marginUsed / cfg.starting_balance * 100],
                  trades := st.trades ++
                    (if capture = true ∧ st.entryTime.isSome = true then
                      [{ entry_time := st.entryTime.getD 0, exit_time := row.time,
                         side := "SHORT", entry_price := st.entryPrice.getD 0,
                         exit_price := st.liqPrice.getD 0, pnl_value := -st.marginUsed,
                         pnl_pct := -st.marginUsed / cfg.starting_balance * 100,
                         qty := st.qty, exit_type := "margin_call",
                         fill_status := st.entryFillStatus }]
                    else []) } := by
  simp only [exitPhase]
  rw [if_pos ⟨hopen, hep, hlq⟩, if_pos hmc]

/-- C1 (counterexample).  With the optimizer reporting non-positive total
PnL, an open position whose margin-call condition holds on the polled bar,
and plenty of bars, the live iteration leaves the position open and appends
no trade — even though the exit handler, had it been reached, would have
closed the position.  This refutes the claim that the exit evaluation is
still performed while standing aside. -/
theorem c1_no_edge_skips_exit_counterexample :
    (liveIteration fixCfg fixParams 0 300 fixRowMC .noSignal fixLive).position
        = some fixPos
    ∧ (liveIteration fixCfg fixParams 0 300 fixRowMC .noSignal fixLive).tradelog = []
    ∧ fixPos.liq_price.getD 0 ≤ fixRowMC.High
    ∧ (handle_exit fixCfg fixRowMC fixLive).position = none
    ∧ (handle_exit fixCfg fixRowMC fixLive).tradelog.length = 1 := by
  with_unfolding_all decide

/-- C1 (amended).  Whenever the most recent optimizer result reports
non-positive total PnL, the live iteration is skipped in its entirety
before the entry block and the exit handler: the engine opens no new
position, performs no exit evaluation, and leaves the whole engine state
(position, equity, trade log, last signal timestamp) unchanged. -/
theorem c1_no_edge_stands_aside (cfg : TraderConfig) (params : StrategyParams)
    (totalPnl : ℚ) (dataLen : ℕ) (row : FeatRow) (attempt : EntryAttempt)
    (st : LiveState) (hpnl : totalPnl ≤ 0) :
    liveIteration cfg params totalPnl dataLen row attempt st = st := by
  by_cases h1 : dataLen < params.highest_high_lookback + cfg.min_history_padding
  · simp [liveIteration, h1]
  · simp [liveIteration, h1, hpnl]

/-- Witness for `c1_no_edge_stands_aside` at a concrete state with an open
position. -/
theorem c1_no_edge_stands_aside_witness :
    liveIteration fixCfg fixParams 0 300 fixRowMC .noSignal fixLive = fixLive :=
  c1_no_edge_stands_aside fixCfg fixParams 0 300 fixRowMC .noSignal fixLive
    (by with_unfolding_all decide)

/-- C8.  When the fetched series has fewer bars than the maximum lookback of
the search range plus the minimum history padding, `run_backtests` raises
`ValueError` with nothing persisted: the grid search (and hence any backtest
simulation) is never entered. -/
theorem c8_insufficient_data_hard_failure (cfg : TraderConfig)
    (fills : ℕ → ℚ → Option ℚ) (sharpeFn : List ℚ → ℚ) (bars : List Bar)
    (maxLb : ℕ) (hmax : listMaxNat cfg.highest_high_lookback_range = some maxLb)
    (hlen : bars.length < maxLb + cfg.min_history_padding) :
    run_backtests cfg fills sharpeFn bars =
      { saved := none, queued := none,
        outcome := .error (.valueError "Not enough candles fetched for optimizer warmup") } := by
  unfold run_backtests
  rw [hmax]
  simp [hlen]

/-- Witness for `c8_insufficient_data_hard_failure`: one bar against a
required 10 + 200. -/
theorem c8_insufficient_data_hard_failure_witness :
    run_backtests { fixCfg with highest_high_lookback_range := [10],
                                min_history_padding := 200 }
        fixFills (fun _ => 0) fixBars =
      { saved := none, queued := none,
        outcome := .error (.valueError "Not enough candles fetched for optimizer warmup") } :=
  c8_insufficient_data_hard_failure _ fixFills (fun _ => 0) fixBars 10
    (by decide) (by decide)

/-- C9.  Whenever the data-sufficiency check passes and the grid search
selects a best row, `run_backtests` persists the best-parameter artifact and
the queue item and then raises `TypeError`: the `StrategyParams` dataclass
declares four required fields but is called with two positional arguments,
so the best-parameter replay — and, through `MainEngine.run`, the
live-engine launch — is unreachable. -/
theorem c9_run_backtests_always_type_error (cfg : TraderConfig)
    (fills : ℕ → ℚ → Option ℚ) (sharpeFn : List ℚ → ℚ) (bars : List Bar)
    (maxLb : ℕ) (best : ResultRow)
    (hmax : listMaxNat cfg.highest_high_lookback_range = some maxLb)
    (hlen : maxLb + cfg.min_history_padding ≤ bars.length)
    (hbest : selectBest (grid_search_with_progress cfg fills sharpeFn bars) = some best) :
    run_backtests cfg fills sharpeFn bars =
      { saved := some best, queued := some best,
        outcome := .error (.typeError
          "StrategyParams.__init__ takes 4 required positional arguments") }
    ∧ mainEngineRun cfg fills sharpeFn bars =
        .error (.typeError
          "StrategyParams.__init__ takes 4 required positional arguments") := by
  have hrb : run_backtests cfg fills sharpeFn bars =
      { saved := some best, queued := some best,
        outcome := .error (.typeError
          "StrategyParams.__init__ takes 4 required positional arguments") } := by
    unfold run_backtests
    simp only [hmax, Nat.not_lt.mpr hlen, if_false, hbest, strategyParamsCall]
  refine ⟨hrb, ?_⟩
  unfold mainEngineRun
  rw [hrb]

/-- Witness for `c9_run_backtests_always_type_error` on a concrete one-bar
run (which passes the data check, since the fixture requires only one bar,
and trades nothing). -/
theorem c9_run_backtests_always_type_error_witness :
    run_backtests fixCfg fixFills (fun _ => 0) [⟨0, 1, 1, 1, 1⟩] =
      { saved := some ⟨fixParams, run_backtest fixCfg fixParams fixFills (fun _ => 0) false [⟨0, 1, 1, 1, 1⟩]⟩,
        queued := some ⟨fixParams, run_backtest fixCfg fixParams fixFills (fun _ => 0) false [⟨0, 1, 1, 1, 1⟩]⟩,
        outcome := .error (.typeError
          "StrategyParams.__init__ takes 4 required positional arguments") }
    ∧ mainEngineRun fixCfg fixFills (fun _ => 0) [⟨0, 1, 1, 1, 1⟩] =
        .error (.typeError
          "StrategyParams.__init__ takes 4 required positional arguments") :=
  c9_run_backtests_always_type_error fixCfg fixFills (fun _ => 0) [⟨0, 1, 1, 1, 1⟩] 1
    ⟨fixParams, run_backtest fixCfg fixParams fixFills (fun _ => 0) false [⟨0, 1, 1, 1, 1⟩]⟩
    (by decide) (by decide) (by with_unfolding_all decide)

/-- C10.  On a series with no bar beyond the warmup index (at most
`lookback + 1` rows), the backtest loop never runs, the equity curve stays
empty, and the run returns the neutral metrics without raising: zero PnL
value and percent, final balance equal to the starting balance, zero wins
and losses, reward:risk `None`. -/
theorem c10_short_series_neutral_metrics (cfg : TraderConfig)
    (params : StrategyParams) (fills : ℕ → ℚ → Option ℚ)
    (sharpeFn : List ℚ → ℚ) (capture : Bool) (bars : List Bar)
    (h : bars.length ≤ params.highest_high_lookback + 1) :
    run_backtest cfg params fills sharpeFn capture bars =
      { pnl_pct := 0, pnl_value := 0, final_balance := cfg.starting_balance,
        avg_win := 0, avg_loss := 0, win_rate := 0, rr_ratio := none,
        sharpe := 0, drawdown := 0, wins := 0, losses := 0 } := by
  unfold run_backtest run_backtest_state
  have hnil : (featRows bars params.highest_high_lookback).drop
      (params.highest_high_lookback + 1) = [] := by
    apply List.drop_eq_nil_of_le
    simpa [featRows] using h
  rw [hnil]
  rfl

/-- Witness for `c10_short_series_neutral_metrics`: a two-bar series with
lookback 1. -/
theorem c10_short_series_neutral_metrics_witness :
    run_backtest fixCfg fixParams fixFills (fun _ => 0) true
        [⟨0, 10, 10, 10, 10⟩, ⟨1, 10, 10, 9, 10⟩] =
      { pnl_pct := 0, pnl_value := 0, final_balance := fixCfg.starting_balance,
        avg_win := 0, avg_loss := 0, win_rate := 0, rr_ratio := none,
        sharpe := 0, drawdown := 0, wins := 0, losses := 0 } :=
  c10_short_series_neutral_metrics fixCfg fixParams fixFills (fun _ => 0) true
    [⟨0, 10, 10, 10, 10⟩, ⟨1, 10, 10, 9, 10⟩] (by decide)

/-- C2.  When both the margin-call condition (bar high at or above the
liquidation price) and the take-profit condition (bar low at or below the
exit target) hold on the same bar of an open position, the backtest state
machine and the live exit handler both resolve the bar as a margin call:
the backtest records a `"margin_call"` trade and counts a loss (not a win),
and the live handler appends a `"MARGIN CALL"` record losing the posted
margin; both return to flat. -/
theorem c2_margin_call_precedence :
    (∀ (cfg : TraderConfig) (params : StrategyParams) (fills : ℕ → ℚ → Option ℚ)
        (st : BTState) (row : FeatRow),
      st.positionOpen = true → st.entryPrice.isSome = true →
      st.liqPrice.isSome = true → st.entryTime.isSome = true →
      st.liqPrice.getD 0 ≤ row.High →
      st.exitTarget.isSome = true → row.Low ≤ st.exitTarget.getD 0 →
      (stepBar cfg params fills true st row).trades
          = st.trades ++
            [{ entry_time := st.entryTime.getD 0, exit_time := row.time,
               side := "SHORT", entry_price := st.entryPrice.getD 0,
               exit_price := st.liqPrice.getD 0, pnl_value := -st.marginUsed,
               pnl_pct := -st.marginUsed / cfg.starting_balance * 100,
               qty := st.qty, exit_type := "margin_call",
               fill_status := st.entryFillStatus }]
        ∧ (stepBar cfg params fills true st row).losses = st.losses + 1
        ∧ (stepBar cfg params fills true st row).wins = st.wins
        ∧ (stepBar cfg params fills true st row).positionOpen = false)
    ∧ (∀ (cfg : TraderConfig) (row : FeatRow) (st : LiveState) (pos : PositionState),
      st.position = some pos →
      pos.liq_price.getD 0 ≤ row.High →
      pos.exit_target.isSome = true → row.Low ≤ pos.exit_target.getD 0 →
      (handle_exit cfg row st).tradelog
          = st.tradelog ++
            [{ entry_time := pos.entry_bar_time, exit_time := row.time,
               side := pos.side.toUpper, entry_price := pos.entry_price,
               exit_price := pyOrQ pos.liq_price row.High, qty := pos.qty,
               pnl := -pos.margin_used, status := "MARGIN CALL",
               equity := st.equity, margin_used := pos.margin_used,
               exit_type := pos.exit_type }]
        ∧ (handle_exit cfg row st).position = none
        ∧ (handle_exit cfg row st).equity = st.equity) := by
  constructor
  · intro cfg params fills st row hopen hep hlq het hmc htgt hlow
    rw [stepBar_open cfg params fills true st row hopen,
        exitPhase_margin_call cfg params true row st hopen hep hlq hmc]
    simp [equityPhase, closePosition, het]
  · intro cfg row st pos hpos hmc htgt hlow
    unfold handle_exit
    rw [hpos]
    simp [hmc, htgt, hlow]

/-- Witness for `c2_margin_call_precedence`: a bar whose high reaches the
liquidation price 12 and whose low reaches the exit target 9, against the
concrete open backtest state and the concrete open live position. -/
theorem c2_margin_call_precedence_witness :
    ((stepBar fixCfg fixParams fixFills true fixBT fixRowBoth).trades
        = fixBT.trades ++
          [{ entry_time := fixBT.entryTime.getD 0, exit_time := fixRowBoth.time,
             side := "SHORT", entry_price := fixBT.entryPrice.getD 0,
             exit_price := fixBT.liqPrice.getD 0, pnl_value := -fixBT.marginUsed,
             pnl_pct := -fixBT.marginUsed / fixCfg.starting_balance * 100,
             qty := fixBT.qty, exit_type := "margin_call",
             fill_status := fixBT.entryFillStatus }]
      ∧ (stepBar fixCfg fixParams fixFills true fixBT fixRowBoth).losses = fixBT.losses + 1
      ∧ (stepBar fixCfg fixParams fixFills true fixBT fixRowBoth).wins = fixBT.wins
      ∧ (stepBar fixCfg fixParams fixFills true fixBT fixRowBoth).positionOpen = false)
    ∧ ((handle_exit fixCfg fixRowBoth fixLive).tradelog
        = fixLive.tradelog ++
          [{ entry_time := fixPos.entry_bar_time, exit_time := fixRowBoth.time,
             side := fixPos.side.toUpper, entry_price := fixPos.entry_price,
             exit_price := pyOrQ fixPos.liq_price fixRowBoth.High, qty := fixPos.qty,
             pnl := -fixPos.margin_used, status := "MARGIN CALL",
             equity := fixLive.equity, margin_used := fixPos.margin_used,
             exit_type := fixPos.exit_type }]
      ∧ (handle_exit fixCfg fixRowBoth fixLive).position = none
      ∧ (handle_exit fixCfg fixRowBoth fixLive).equity = fixLive.equity) :=
  ⟨c2_margin_call_precedence.1 fixCfg fixParams fixFills fixBT fixRowBoth
      (by decide) (by decide) (by decide) (by decide)
      (by with_unfolding_all decide) (by decide) (by with_unfolding_all decide),
   c2_margin_call_precedence.2 fixCfg fixRowBoth fixLive fixPos
      (by decide) (by with_unfolding_all decide) (by decide)
      (by with_unfolding_all decide)⟩

/-- C3.  Every margin-call exit of the backtest records a `"margin_call"`
trade whose net PnL is exactly the negated posted margin (no exit fee is
charged, and the bar high beyond the liquidation price is irrelevant: the
row is universally quantified subject only to the margin-call condition),
counts it as a loss, and returns the state machine to flat with every
position-describing field cleared. -/
theorem c3_margin_call_loses_margin (cfg : TraderConfig) (params : StrategyParams)
    (fills : ℕ → ℚ → Option ℚ) (st : BTState) (row : FeatRow)
    (hopen : st.positionOpen = true) (hep : st.entryPrice.isSome = true)
    (hlq : st.liqPrice.isSome = true) (het : st.entryTime.isSome = true)
    (hmc : st.liqPrice.getD 0 ≤ row.High) :
    (stepBar cfg params fills true st row).trades
        = st.trades ++
          [{ entry_time := st.entryTime.getD 0, exit_time := row.time,
             side := "SHORT", entry_price := st.entryPrice.getD 0,
             exit_price := st.liqPrice.getD 0, pnl_value := -st.marginUsed,
             pnl_pct := -st.marginUsed / cfg.starting_balance * 100,
             qty := st.qty, exit_type := "margin_call",
             fill_status := st.entryFillStatus }]
      ∧ (stepBar cfg params fills true st row).losses = st.losses + 1
      ∧ (stepBar cfg params fills true st row).wins = st.wins
      ∧ (stepBar cfg params fills true st row).positionOpen = false
      ∧ (stepBar cfg params fills true st row).entryPrice = none
      ∧ (stepBar cfg params fills true st row).entryTime = none
      ∧ (stepBar cfg params fills true st row).liqPrice = none
      ∧ (stepBar cfg params fills true st row).exitTarget = none
      ∧ (stepBar cfg params fills true st row).qty = 0
      ∧ (stepBar cfg params fills true st row).marginUsed = 0 := by
  rw [stepBar_open cfg params fills true st row hopen,
      exitPhase_margin_call cfg params true row st hopen hep hlq hmc]
  simp [equityPhase, closePosition, het]

/-- Witness for `c3_margin_call_loses_margin`: the bar high (14) overshoots
the liquidation price (12); the loss is still exactly the posted margin. -/
theorem c3_margin_call_loses_margin_witness :
    (stepBar fixCfg fixParams fixFills true fixBT fixRowMC).trades
        = fixBT.trades ++
          [{ entry_time := fixBT.entryTime.getD 0, exit_time := fixRowMC.time,
             side := "SHORT", entry_price := fixBT.entryPrice.getD 0,
             exit_price := fixBT.liqPrice.getD 0, pnl_value := -fixBT.marginUsed,
             pnl_pct := -fixBT.marginUsed / fixCfg.starting_balance * 100,
             qty := fixBT.qty, exit_type := "margin_call",
             fill_status := fixBT.entryFillStatus }]
      ∧ (stepBar fixCfg fixParams fixFills true fixBT fixRowMC).losses = fixBT.losses + 1
      ∧ (stepBar fixCfg fixParams fixFills true fixBT fixRowMC).wins = fixBT.wins
      ∧ (stepBar fixCfg fixParams fixFills true fixBT fixRowMC).positionOpen = false
      ∧ (stepBar fixCfg fixParams fixFills true fixBT fixRowMC).entryPrice = none
      ∧ (stepBar fixCfg fixParams fixFills true fixBT fixRowMC).entryTime = none
      ∧ (stepBar fixCfg fixParams fixFills true fixBT fixRowMC).liqPrice = none
      ∧ (stepBar fixCfg fixParams fixFills true fixBT fixRowMC).exitTarget = none
      ∧ (stepBar fixCfg fixParams fixFills true fixBT fixRowMC).qty = 0
      ∧ (stepBar fixCfg fixParams fixFills true fixBT fixRowMC).marginUsed = 0 :=
  c3_margin_call_loses_margin fixCfg fixParams fixFills fixBT fixRowMC
    (by decide) (by decide) (by decide) (by decide) (by with_unfolding_all decide)

/-- When the clamped risk fraction is zero, a flat bar only appends one
equity-curve point: no field of the state other than the curve changes. -/
theorem stepBar_flat_rf0 (cfg : TraderConfig) (params : StrategyParams)
    (fills : ℕ → ℚ → Option ℚ) (capture : Bool) (st : BTState) (row : FeatRow)
    (h0 : min (max params.risk_fraction 0) 1 = 0) (hflat : st.positionOpen = false) :
    ∃ v, stepBar cfg params fills capture st row
      = { st with equityCurve := st.equityCurve ++ [v] } := by
  unfold stepBar entryPhase
  by_cases hsig : st.positionOpen = false ∧ 0 < st.balance ∧ (row.entry_signal && row.tradable) = true
  · rw [if_pos hsig]
    cases hfill : fills row.idx row.Close with
    | none => exact ⟨st.balance, by simp [abortBar]⟩
    | some fp => exact ⟨st.balance, by simp [h0, abortBar]⟩
  · rw [if_neg hsig]
    refine ⟨max st.balance 0, ?_⟩
    simp [exitPhase, equityPhase, hflat]

/-- The loop started flat with a zero clamped risk fraction stays flat bar
after bar: balance, trades, wins and losses never change. -/
theorem runRows_rf0 (cfg : TraderConfig) (params : StrategyParams)
    (fills : ℕ → ℚ → Option ℚ) (capture : Bool)
    (h0 : min (max params.risk_fraction 0) 1 = 0) :
    ∀ (rows : List FeatRow) (st : BTState), st.positionOpen = false →
      (runRows cfg params fills capture st rows).positionOpen = false
      ∧ (runRows cfg params fills capture st rows).balance = st.balance
      ∧ (runRows cfg params fills capture st rows).trades = st.trades
      ∧ (runRows cfg params fills capture st rows).wins = st.wins
      ∧ (runRows cfg params fills capture st rows).losses = st.losses := by
  intro rows
  induction rows with
  | nil => intro st hflat; simp [runRows, hflat]
  | cons r rs ih =>
    intro st hflat
    obtain ⟨v, hv⟩ := stepBar_flat_rf0 cfg params fills capture st r h0 hflat
    simp only [runRows, hv]
    exact ih _ hflat

/-- The wins reported by the metrics: zero on the empty equity curve, the
loop counter otherwise. -/
theorem metricsOf_wins (cfg : TraderConfig) (sharpeFn : List ℚ → ℚ) (st : BTState) :
    (metricsOf cfg sharpeFn st).wins = if st.equityCurve = [] then 0 else st.wins := by
  unfold metricsOf
  split_ifs <;> rfl

/-- The losses reported by the metrics: zero on the empty equity curve, the
loop counter otherwise. -/
theorem metricsOf_losses (cfg : TraderConfig) (sharpeFn : List ℚ → ℚ) (st : BTState) :
    (metricsOf cfg sharpeFn st).losses = if st.equityCurve = [] then 0 else st.losses := by
  unfold metricsOf
  split_ifs <;> rfl

/-- C6.  First conjunct: on any bar processed from a flat state, if the
clamped risk fraction is zero, or the implied margin (balance times clamped
risk fraction) is below `min_notional`, or the implied leveraged notional is
below `min_notional`, then the bar opens no position and changes neither the
balance nor the trade list (the state remains flat).  Second conjunct: a
risk-fraction parameter of zero keeps the whole run flat for every
combination of the other parameters — no trade, no win, no loss, final
balance untouched. -/
theorem c6_entry_gates_and_zero_risk :
    (∀ (cfg : TraderConfig) (params : StrategyParams) (fills : ℕ → ℚ → Option ℚ)
        (capture : Bool) (st : BTState) (row : FeatRow),
      st.positionOpen = false →
      (min (max params.risk_fraction 0) 1 = 0
        ∨ st.balance * min (max params.risk_fraction 0) 1 < cfg.min_notional
        ∨ st.balance * min (max params.risk_fraction 0) 1 *
            ((resolve_leverage (st.balance * min (max params.risk_fraction 0) 1)
              cfg.desired_leverage cfg : ℕ) : ℚ) < cfg.min_notional) →
      (stepBar cfg params fills capture st row).positionOpen = false
      ∧ (stepBar cfg params fills capture st row).balance = st.balance
      ∧ (stepBar cfg params fills capture st row).trades = st.trades)
    ∧ (∀ (cfg : TraderConfig) (params : StrategyParams) (fills : ℕ → ℚ → Option ℚ)
        (sharpeFn : List ℚ → ℚ) (capture : Bool) (bars : List Bar),
      params.risk_fraction = 0 →
      (run_backtest_state cfg params fills capture bars).positionOpen = false
      ∧ (run_backtest_state cfg params fills capture bars).trades = []
      ∧ (run_backtest_state cfg params fills capture bars).balance = cfg.starting_balance
      ∧ (run_backtest cfg params fills sharpeFn capture bars).wins = 0
      ∧ (run_backtest cfg params fills sharpeFn capture bars).losses = 0) := by
  constructor
  · intro cfg params fills capture st row hflat hgate
    unfold stepBar entryPhase
    by_cases hsig : st.positionOpen = false ∧ 0 < st.balance ∧ (row.entry_signal && row.tradable) = true
    · rw [if_pos hsig]
      cases hfill : fills row.idx row.Close with
      | none => simp [abortBar, hflat]
      | some fp =>
        by_cases h0 : min (max params.risk_fraction 0) 1 = 0
        · simp [h0, abortBar, hflat]
        · by_cases hm : st.balance * min (max params.risk_fraction 0) 1 < cfg.min_notional
          · simp [h0, hm, abortBar, hflat]
          · by_cases htv : st.balance * min (max params.risk_fraction 0) 1 *
                ((resolve_leverage (st.balance * min (max params.risk_fraction 0) 1)
                  cfg.desired_leverage cfg : ℕ) : ℚ) < cfg.min_notional
            · simp [h0, hm, htv, abortBar, hflat]
            · rcases hgate with h | h | h
              · exact absurd h h0
              · exact absurd h hm
              · exact absurd h htv
    · rw [if_neg hsig]
      simp [exitPhase, equityPhase, hflat]
  · intro cfg params fills sharpeFn capture bars hrf
    have h0 : min (max params.risk_fraction 0) 1 = 0 := by
      rw [hrf]; norm_num
    have key : run_backtest_state cfg params fills capture bars
        = runRows cfg params fills capture (initState cfg)
          ((featRows bars params.highest_high_lookback).drop
            (params.highest_high_lookback + 1)) := rfl
    have hrun := runRows_rf0 cfg params fills capture h0
      ((featRows bars params.highest_high_lookback).drop (params.highest_high_lookback + 1))
      (initState cfg) (by simp [initState])
    rw [← key] at hrun
    have hw : (run_backtest_state cfg params fills capture bars).wins = 0 := by
      rw [hrun.2.2.2.1]; rfl
    have hl : (run_backtest_state cfg params fills capture bars).losses = 0 := by
      rw [hrun.2.2.2.2]; rfl
    refine ⟨hrun.1, by rw [hrun.2.2.1]; rfl, by rw [hrun.2.1]; rfl, ?_, ?_⟩
    · rw [run_backtest, metricsOf_wins]
      split_ifs <;> simp [hw]
    · rw [run_backtest, metricsOf_losses]
      split_ifs <;> simp [hl]

/-- Witness for `c6_entry_gates_and_zero_risk`: the flat fixture state with
a zero risk fraction on the entry-signal bar, and a whole fixture run with
risk fraction zero. -/
theorem c6_entry_gates_and_zero_risk_witness :
    ((stepBar fixCfg { fixParams with risk_fraction := 0 } fixFills true
        (initState fixCfg) (mkFeatRow fixBars 1 2)).positionOpen = false
      ∧ (stepBar fixCfg { fixParams with risk_fraction := 0 } fixFills true
          (initState fixCfg) (mkFeatRow fixBars 1 2)).balance = (initState fixCfg).balance
      ∧ (stepBar fixCfg { fixParams with risk_fraction := 0 } fixFills true
          (initState fixCfg) (mkFeatRow fixBars 1 2)).trades = (initState fixCfg).trades)
    ∧ ((run_backtest_state fixCfg { fixParams with risk_fraction := 0 } fixFills true fixBars).positionOpen = false
      ∧ (run_backtest_state fixCfg { fixParams with risk_fraction := 0 } fixFills true fixBars).trades = []
      ∧ (run_backtest_state fixCfg { fixParams with risk_fraction := 0 } fixFills true fixBars).balance
          = fixCfg.starting_balance
      ∧ (run_backtest fixCfg { fixParams with risk_fraction := 0 } fixFills (fun _ => 0) true fixBars).wins = 0
      ∧ (run_backtest fixCfg { fixParams with risk_fraction := 0 } fixFills (fun _ => 0) true fixBars).losses = 0) :=
  ⟨c6_entry_gates_and_zero_risk.1 fixCfg { fixParams with risk_fraction := 0 }
      fixFills true (initState fixCfg) (mkFeatRow fixBars 1 2) (by decide)
      (Or.inl (by with_unfolding_all decide)),
   c6_entry_gates_and_zero_risk.2 fixCfg { fixParams with risk_fraction := 0 }
      fixFills (fun _ => 0) true fixBars (by decide)⟩

/-- The equity-curve update changes no field but the curve. -/
theorem equityPhase_trades (row : FeatRow) (st : BTState) :
    (equityPhase row st).trades = st.trades := rfl

/-- The equity-curve update preserves the position flag. -/
theorem equityPhase_positionOpen (row : FeatRow) (st : BTState) :
    (equityPhase row st).positionOpen = st.positionOpen := rfl

/-- The equity-curve update preserves the entry time. -/
theorem equityPhase_entryTime (row : FeatRow) (st : BTState) :
    (equityPhase row st).entryTime = st.entryTime := rfl

/-- If the exit evaluation leaves the position open, it changed nothing. -/
theorem exitPhase_open_eq (cfg : TraderConfig) (params : StrategyParams)
    (capture : Bool) (row : FeatRow) (st : BTState)
    (h : (exitPhase cfg params capture row st).positionOpen = true) :
    exitPhase cfg params capture row st = st := by
  by_cases hcond : st.positionOpen = true ∧ st.entryPrice.isSome = true
      ∧ st.liqPrice.isSome = true
  · by_cases hmc : st.liqPrice.getD 0 ≤ row.High
    · exfalso
      rw [exitPhase_margin_call cfg params capture row st hcond.1 hcond.2.1
            hcond.2.2 hmc] at h
      simp [closePosition] at h
    · by_cases htp : st.exitTarget.isSome = true ∧ row.Low ≤ st.exitTarget.getD 0
      · exfalso
        have hfalse : (exitPhase cfg params capture row st).positionOpen = false := by
          simp only [exitPhase]
          rw [if_pos hcond, if_neg hmc, if_pos htp]
          rfl
        rw [hfalse] at h
        cases h
      · simp only [exitPhase]
        rw [if_pos hcond, if_neg hmc, if_neg htp]
  · simp only [exitPhase]
    rw [if_neg hcond]

/-- Provenance of trades across one exit evaluation: a recorded trade is
either an old one, or closes the position that was open entering the bar —
exiting at the bar's own time, with its recorded entry time being the open
position's entry time. -/
theorem exitPhase_trade_provenance (cfg : TraderConfig) (params : StrategyParams)
    (capture : Bool) (row : FeatRow) (st : BTState) :
    ∀ t ∈ (exitPhase cfg params capture row st).trades,
      t ∈ st.trades
      ∨ (st.positionOpen = true ∧ t.exit_time = row.time
          ∧ st.entryTime = some t.entry_time) := by
  intro t ht
  by_cases hcond : st.positionOpen = true ∧ st.entryPrice.isSome = true
      ∧ st.liqPrice.isSome = true
  · by_cases hmc : st.liqPrice.getD 0 ≤ row.High
    · rw [exitPhase_margin_call cfg params capture row st hcond.1 hcond.2.1
            hcond.2.2 hmc] at ht
      simp only [closePosition, List.mem_append] at ht
      rcases ht with h | h
      · exact Or.inl h
      · by_cases hcap : capture = true ∧ st.entryTime.isSome = true
        · rw [if_pos hcap] at h
          simp only [List.mem_singleton] at h
          subst h
          obtain ⟨e, he⟩ := Option.isSome_iff_exists.mp hcap.2
          exact Or.inr ⟨hcond.1, rfl, by simp [he]⟩
        · rw [if_neg hcap] at h
          cases h
    · by_cases htp : st.exitTarget.isSome = true ∧ row.Low ≤ st.exitTarget.getD 0
      · simp only [exitPhase] at ht
        rw [if_pos hcond, if_neg hmc, if_pos htp] at ht
        simp only [closePosition, List.mem_append] at ht
        rcases ht with h | h
        · exact Or.inl h
        · by_cases hcap : capture = true ∧ st.entryTime.isSome = true
          · rw [if_pos hcap] at h
            simp only [List.mem_singleton] at h
            subst h
            obtain ⟨e, he⟩ := Option.isSome_iff_exists.mp hcap.2
            exact Or.inr ⟨hcond.1, rfl, by simp [he]⟩
          · rw [if_neg hcap] at h
            cases h
      · simp only [exitPhase] at ht
        rw [if_pos hcond, if_neg hmc, if_neg htp] at ht
        exact Or.inl ht
  · simp only [exitPhase] at ht
    rw [if_neg hcond] at ht
    exact Or.inl ht

/-- What the entry block can do: it never touches the trade list; on a
`continue` it only appended an equity point; otherwise it either left the
state alone or opened a position stamped with the current bar's time from a
flat state. -/
theorem entryPhase_spec (cfg : TraderConfig) (params : StrategyParams)
    (fills : ℕ → ℚ → Option ℚ) (st : BTState) (row : FeatRow) :
    (entryPhase cfg params fills st row).1.trades = st.trades
    ∧ ((entryPhase cfg params fills st row).2 = true →
        (entryPhase cfg params fills st row).1 = abortBar st)
    ∧ ((entryPhase cfg params fills st row).2 = false →
        (entryPhase cfg params fills st row).1 = st
        ∨ ((entryPhase cfg params fills st row).1.positionOpen = true
            ∧ (entryPhase cfg params fills st row).1.entryTime = some row.time
            ∧ (entryPhase cfg params fills st row).1.entryPrice.isSome = true
            ∧ st.positionOpen = false))
    ∧ ((entryPhase cfg params fills st row).2 = true → st.positionOpen = false)
    ∧ ((entryPhase cfg params fills st row).2 = false →
        (entryPhase cfg params fills st row).1.equityCurve = st.equityCurve) := by
  unfold entryPhase
  by_cases hsig : st.positionOpen = false ∧ 0 < st.balance
      ∧ (row.entry_signal && row.tradable) = true
  · rw [if_pos hsig]
    cases hfill : fills row.idx row.Close with
    | none => exact ⟨rfl, fun _ => rfl, fun h => absurd h (by simp), fun _ => hsig.1,
              fun h => absurd h (by simp)⟩
    | some fp =>
      dsimp only
      by_cases h0 : min (max params.risk_fraction 0) 1 = 0
      · rw [if_pos h0]
        exact ⟨rfl, fun _ => rfl, fun h => absurd h (by simp), fun _ => hsig.1,
              fun h => absurd h (by simp)⟩
      · rw [if_neg h0]
        by_cases hm : st.balance * min (max params.risk_fraction 0) 1 < cfg.min_notional
        · rw [if_pos hm]
          exact ⟨rfl, fun _ => rfl, fun h => absurd h (by simp), fun _ => hsig.1,
              fun h => absurd h (by simp)⟩
        · rw [if_neg hm]
          by_cases htv : st.balance * min (max params.risk_fraction 0) 1 *
              ((resolve_leverage (st.balance * min (max params.risk_fraction 0) 1)
                cfg.desired_leverage cfg : ℕ) : ℚ) < cfg.min_notional
          · rw [if_pos htv]
            exact ⟨rfl, fun _ => rfl, fun h => absurd h (by simp), fun _ => hsig.1,
              fun h => absurd h (by simp)⟩
          · rw [if_neg htv]
            refine ⟨rfl, fun h => ?_, fun _ => Or.inr ⟨rfl, rfl, rfl, hsig.1⟩,
              fun h => ?_, fun _ => rfl⟩
            · simp at h
            · simp at h
  · rw [if_neg hsig]
    refine ⟨rfl, fun h => ?_, fun _ => Or.inl rfl, fun h => ?_, fun _ => rfl⟩
    · simp at h
    · simp at h

/-- Provenance of trades across a whole bar, and the origin of the open
position's entry time after the bar: a new trade exits at the bar's time and
either opened on this very bar or carries the previously open position's
entry time; a position open after the bar either predates the bar or was
opened on it. -/
theorem stepBar_trade_provenance (cfg : TraderConfig) (params : StrategyParams)
    (fills : ℕ → ℚ → Option ℚ) (capture : Bool) (st : BTState) (row : FeatRow) :
    (∀ t ∈ (stepBar cfg params fills capture st row).trades,
      t ∈ st.trades
      ∨ (t.exit_time = row.time ∧ (t.entry_time = row.time
          ∨ (st.positionOpen = true ∧ st.entryTime = some t.entry_time))))
    ∧ ((stepBar cfg params fills capture st row).positionOpen = true →
        ∀ e, (stepBar cfg params fills capture st row).entryTime = some e →
          (st.positionOpen = true ∧ st.entryTime = some e) ∨ e = row.time) := by
  obtain ⟨htr, habort, hrun, hquitflat, hcurve⟩ := entryPhase_spec cfg params fills st row
  unfold stepBar
  by_cases hq : (entryPhase cfg params fills st row).2 = true
  · rw [if_pos hq, habort hq]
    constructor
    · intro t ht
      exact Or.inl ht
    · intro hopen e he
      exact Or.inl ⟨hopen, he⟩
  · rw [if_neg hq]
    rcases hrun (Bool.not_eq_true _ ▸ Bool.of_not_eq_true hq) with hsame | hopened
    · rw [hsame]
      constructor
      · intro t ht
        rw [equityPhase_trades] at ht
        rcases exitPhase_trade_provenance cfg params capture row st t ht with h | h
        · exact Or.inl h
        · exact Or.inr ⟨h.2.1, Or.inr ⟨h.1, h.2.2⟩⟩
      · intro hopen e he
        rw [equityPhase_positionOpen] at hopen
        have heq := exitPhase_open_eq cfg params capture row st hopen
        rw [equityPhase_entryTime, heq] at he
        rw [heq] at hopen
        exact Or.inl ⟨hopen, he⟩
    · set st1 := (entryPhase cfg params fills st row).1 with hst1
      constructor
      · intro t ht
        rw [equityPhase_trades] at ht
        rcases exitPhase_trade_provenance cfg params capture row st1 t ht with h | h
        · rw [htr] at h
          exact Or.inl h
        · have : some row.time = some t.entry_time := by
            rw [← hopened.2.1]
            exact h.2.2
          exact Or.inr ⟨h.2.1, Or.inl (Option.some.inj this).symm⟩
      · intro hopen e he
        rw [equityPhase_positionOpen] at hopen
        have heq := exitPhase_open_eq cfg params capture row st1 hopen
        rw [equityPhase_entryTime, heq] at he
        have : some row.time = some e := by rw [← hopened.2.1]; exact he
        exact Or.inr (Option.some.inj this).symm

/-- Along any suffix of time-ascending rows, starting from a state whose
open position (if any) predates every remaining row and whose recorded
trades already close at or after their entries, every recorded trade closes
at or after its entry. -/
theorem runRows_exit_after_entry (cfg : TraderConfig) (params : StrategyParams)
    (fills : ℕ → ℚ → Option ℚ) (capture : Bool) :
    ∀ (rows : List FeatRow) (st : BTState),
      List.Pairwise (fun a b => a.time ≤ b.time) rows →
      (st.positionOpen = true → ∀ e, st.entryTime = some e → ∀ r ∈ rows, e ≤ r.time) →
      (∀ t ∈ st.trades, t.entry_time ≤ t.exit_time) →
      ∀ t ∈ (runRows cfg params fills capture st rows).trades,
        t.entry_time ≤ t.exit_time := by
  intro rows
  induction rows with
  | nil => intro st _ _ hold t ht; exact hold t ht
  | cons r rs ih =>
    intro st hpw hbound hold
    have hpw' := List.pairwise_cons.mp hpw
    obtain ⟨hprov, hopen⟩ := stepBar_trade_provenance cfg params fills capture st r
    simp only [runRows]
    apply ih (stepBar cfg params fills capture st r) hpw'.2
    · intro hopen1 e he b hb
      rcases hopen hopen1 e he with ⟨hsopen, hse⟩ | rfl
      · exact hbound hsopen e hse b (List.mem_cons_of_mem r hb)
      · exact hpw'.1 b hb
    · intro t ht
      rcases hprov t ht with hmem | ⟨hexit, hentry⟩
      · exact hold t hmem
      · rcases hentry with hsame | ⟨hsopen, hse⟩
        · rw [hexit, hsame]
        · rw [hexit]
          exact hbound hsopen t.entry_time hse r (List.mem_cons_self r rs)

/-- C4 (counterexample).  On the three-bar fixture series the entry signal
fires on the last bar, the fill opens a short there, and the same bar's low
already reaches the trailing highest-low target, so exit evaluation — which
runs on the entry bar immediately after the entry — closes the trade on the
very bar it opened: the single recorded trade has `exit_time = entry_time`,
refuting "exit time is strictly after entry time". -/
theorem c4_same_bar_trade_counterexample :
    ((run_backtest_with_trades fixCfg fixParams fixFills (fun _ => 0) fixBars).2.map
        (fun t => (t.entry_time, t.exit_time))) = [(2, 2)]
    ∧ ((run_backtest_with_trades fixCfg fixParams fixFills (fun _ => 0) fixBars).2.map
        (fun t => decide (t.entry_time < t.exit_time))) = [false] := by
  with_unfolding_all decide

/-- C4 (amended).  For every Trade record produced by a backtest run over a
time-ascending series, the exit time is at or after the entry time; equality
occurs exactly when a trade opens and closes on the same bar, which the
engine permits because exit evaluation runs on the entry bar right after the
entry. -/
theorem c4_trade_times (cfg : TraderConfig) (params : StrategyParams)
    (fills : ℕ → ℚ → Option ℚ) (sharpeFn : List ℚ → ℚ) (bars : List Bar)
    (hmono : List.Pairwise (fun a b => a.time ≤ b.time)
      ((featRows bars params.highest_high_lookback).drop
        (params.highest_high_lookback + 1))) :
    ∀ t ∈ (run_backtest_with_trades cfg params fills sharpeFn bars).2,
      t.entry_time ≤ t.exit_time := by
  intro t ht
  have hts : (run_backtest_with_trades cfg params fills sharpeFn bars).2
      = (runRows cfg params fills true (initState cfg)
          ((featRows bars params.highest_high_lookback).drop
            (params.highest_high_lookback + 1))).trades := rfl
  rw [hts] at ht
  refine runRows_exit_after_entry cfg params fills true _ (initState cfg) hmono
    ?_ ?_ t ht
  · intro h
    simp [initState] at h
  · intro t ht
    simp [initState] at ht

/-- Witness for `c4_trade_times` on the fixture run (whose one trade closes
on its entry bar, hence with equal times). -/
theorem c4_trade_times_witness :
    ((run_backtest_with_trades fixCfg fixParams fixFills (fun _ => 0) fixBars).2.all
      (fun t => decide (t.entry_time ≤ t.exit_time))) = true :=
  List.all_eq_true.mpr (fun t ht => decide_eq_true
    (c4_trade_times fixCfg fixParams fixFills (fun _ => 0) fixBars
      (by with_unfolding_all decide) t ht))

/-- Folding addition from an arbitrary start. -/
theorem ratSum_foldl (a : ℚ) (l : List ℚ) :
    l.foldl (· + ·) a = a + ratSum l := by
  induction l generalizing a with
  | nil => simp [ratSum]
  | cons x xs ih =>
    rw [List.foldl_cons, ih (a + x)]
    unfold ratSum
    rw [List.foldl_cons, ih (0 + x),
      show List.foldl (· + ·) (0 : ℚ) xs = ratSum xs from rfl]
    ring

/-- `ratSum` distributes over append. -/
theorem ratSum_append (l1 l2 : List ℚ) :
    ratSum (l1 ++ l2) = ratSum l1 + ratSum l2 := by
  unfold ratSum
  rw [List.foldl_append, ratSum_foldl]
  rfl

/-- Appending one trade adds one term to a mapped sum. -/
theorem ratSum_map_concat (f : Trade → ℚ) (T : List Trade) (t : Trade) :
    ratSum ((T ++ [t]).map f) = ratSum (T.map f) + f t := by
  rw [List.map_append, ratSum_append]
  simp [ratSum]

/-- The exit evaluation never touches the equity curve. -/
theorem exitPhase_curve (cfg : TraderConfig) (params : StrategyParams)
    (capture : Bool) (row : FeatRow) (st : BTState) :
    (exitPhase cfg params capture row st).equityCurve = st.equityCurve := by
  by_cases hcond : st.positionOpen = true ∧ st.entryPrice.isSome = true
      ∧ st.liqPrice.isSome = true
  · by_cases hmc : st.liqPrice.getD 0 ≤ row.High
    · rw [exitPhase_margin_call cfg params capture row st hcond.1 hcond.2.1
            hcond.2.2 hmc]
      rfl
    · by_cases htp : st.exitTarget.isSome = true ∧ row.Low ≤ st.exitTarget.getD 0
      · simp only [exitPhase]
        rw [if_pos hcond, if_neg hmc, if_pos htp]
        rfl
      · simp only [exitPhase]
        rw [if_pos hcond, if_neg hmc, if_neg htp]
  · simp only [exitPhase]
    rw [if_neg hcond]

/-- The raw equity in branch form. -/
theorem rawEquity_eq_ite (st : BTState) (close : ℚ) :
    rawEquity st close
      = if st.positionOpen = true ∧ st.entryPrice.isSome = true
        then st.balance + st.marginUsed + (st.entryPrice.getD 0 - close) * st.qty
        else st.balance := by
  unfold rawEquity openMargin unrealizedPnl
  split_ifs <;> ring

/-- The entry block preserves the ledger (the entry fee it debits from the
balance is exactly `bybit_fee` times the entry notional it adds) and the
well-formedness of the state. -/
theorem entryPhase_ledger (cfg : TraderConfig) (params : StrategyParams)
    (fills : ℕ → ℚ → Option ℚ) (st : BTState) (row : FeatRow)
    (hf : ∀ i c, fills i c ≠ some 0) (hwf : WFState st) :
    ledger cfg (entryPhase cfg params fills st row).1 = ledger cfg st
    ∧ WFState (entryPhase cfg params fills st row).1 := by
  unfold entryPhase
  by_cases hsig : st.positionOpen = false ∧ 0 < st.balance
      ∧ (row.entry_signal && row.tradable) = true
  · rw [if_pos hsig]
    cases hfill : fills row.idx row.Close with
    | none => exact ⟨rfl, hwf⟩
    | some fp =>
      dsimp only
      by_cases h0 : min (max params.risk_fraction 0) 1 = 0
      · rw [if_pos h0]
        exact ⟨rfl, hwf⟩
      · rw [if_neg h0]
        by_cases hm : st.balance * min (max params.risk_fraction 0) 1 < cfg.min_notional
        · rw [if_pos hm]
          exact ⟨rfl, hwf⟩
        · rw [if_neg hm]
          by_cases htv : st.balance * min (max params.risk_fraction 0) 1 *
              ((resolve_leverage (st.balance * min (max params.risk_fraction 0) 1)
                cfg.desired_leverage cfg : ℕ) : ℚ) < cfg.min_notional
          · rw [if_pos htv]
            exact ⟨rfl, hwf⟩
          · rw [if_neg htv]
            have hfp : fp ≠ 0 := by
              intro h
              exact hf row.idx row.Close (h ▸ hfill)
            constructor
            · unfold ledger openMargin openNotional tradePnl closedNotional bybit_fee_fn
              simp [hsig.1, div_mul_cancel₀ _ hfp]
              ring
            · intro _
              exact ⟨rfl, rfl⟩
  · rw [if_neg hsig]
    exact ⟨rfl, hwf⟩

/-- Sum of a one-element list. -/
theorem ratSum_singleton (x : ℚ) : ratSum [x] = 0 + x := rfl

/-- With trade capture on and a nonnegative balance (so that the
`max(0.0, balance)` reset in the margin-call branch is the identity), the
exit evaluation preserves the ledger: a margin call converts the posted
margin into recorded negative PnL, a take-profit converts margin plus net
PnL into balance while recording the same net PnL, and in both cases the
open entry notional moves unchanged into the recorded trade. -/
theorem exitPhase_ledger (cfg : TraderConfig) (params : StrategyParams)
    (row : FeatRow) (st : BTState)
    (hwf : WFState st) (h0 : 0 ≤ st.balance) :
    ledger cfg (exitPhase cfg params true row st) = ledger cfg st
    ∧ WFState (exitPhase cfg params true row st) := by
  by_cases hcond : st.positionOpen = true ∧ st.entryPrice.isSome = true
      ∧ st.liqPrice.isSome = true
  · have het : st.entryTime.isSome = true := (hwf hcond.1).2
    by_cases hmc : st.liqPrice.getD 0 ≤ row.High
    · rw [exitPhase_margin_call cfg params true row st hcond.1 hcond.2.1
            hcond.2.2 hmc]
      constructor
      · unfold ledger openMargin openNotional tradePnl closedNotional closePosition
        simp [hcond.1, hcond.2.1, het, List.map_append, ratSum_append,
          ratSum_singleton, max_eq_right h0]
        ring
      · intro h
        simp [closePosition] at h
    · by_cases htp : st.exitTarget.isSome = true ∧ row.Low ≤ st.exitTarget.getD 0
      · constructor
        · simp only [exitPhase]
          rw [if_pos hcond, if_neg hmc, if_pos htp]
          unfold ledger openMargin openNotional tradePnl closedNotional closePosition
          simp [hcond.1, hcond.2.1, het, List.map_append, ratSum_append,
            ratSum_singleton]
        · intro h
          simp only [exitPhase] at h
          rw [if_pos hcond, if_neg hmc, if_pos htp] at h
          simp [closePosition] at h
      · simp only [exitPhase]
        rw [if_pos hcond, if_neg hmc, if_neg htp]
        exact ⟨rfl, hwf⟩
  · simp only [exitPhase]
    rw [if_neg hcond]
    exact ⟨rfl, hwf⟩

/-- One full bar preserves the ledger and the state well-formedness, given
that the balance entering exit evaluation is nonnegative and fills never
occur at price zero. -/
theorem stepBar_ledger (cfg : TraderConfig) (params : StrategyParams)
    (fills : ℕ → ℚ → Option ℚ) (st : BTState) (row : FeatRow)
    (hf : ∀ i c, fills i c ≠ some 0) (hwf : WFState st)
    (hmid : 0 ≤ (entryPhase cfg params fills st row).1.balance) :
    ledger cfg (stepBar cfg params fills true st row) = ledger cfg st
    ∧ WFState (stepBar cfg params fills true st row) := by
  obtain ⟨hel, hewf⟩ := entryPhase_ledger cfg params fills st row hf hwf
  unfold stepBar
  by_cases hq : (entryPhase cfg params fills st row).2 = true
  · rw [if_pos hq]
    exact ⟨hel, hewf⟩
  · rw [if_neg hq]
    obtain ⟨hxl, hxwf⟩ := exitPhase_ledger cfg params row
      (entryPhase cfg params fills st row).1 hewf hmid
    constructor
    · calc ledger cfg (equityPhase row (exitPhase cfg params true row
              (entryPhase cfg params fills st row).1))
          = ledger cfg (exitPhase cfg params true row
              (entryPhase cfg params fills st row).1) := rfl
        _ = ledger cfg (entryPhase cfg params fills st row).1 := hxl
        _ = ledger cfg st := hel
    · exact hxwf

/-- The ledger (and well-formedness) is invariant along any run whose
balances stay nonnegative. -/
theorem runRows_ledger (cfg : TraderConfig) (params : StrategyParams)
    (fills : ℕ → ℚ → Option ℚ) (hf : ∀ i c, fills i c ≠ some 0) :
    ∀ (rows : List FeatRow) (st : BTState), WFState st →
      midBalNonneg cfg params fills true st rows = true →
      ledger cfg (runRows cfg params fills true st rows) = ledger cfg st
      ∧ WFState (runRows cfg params fills true st rows) := by
  intro rows
  induction rows with
  | nil => intro st hwf _; exact ⟨rfl, hwf⟩
  | cons r rs ih =>
    intro st hwf hmid
    unfold midBalNonneg at hmid
    rw [Bool.and_eq_true] at hmid
    have h1 : 0 ≤ (entryPhase cfg params fills st r).1.balance :=
      of_decide_eq_true hmid.1
    obtain ⟨hsl, hswf⟩ := stepBar_ledger cfg params fills st r hf hwf h1
    simp only [runRows]
    obtain ⟨hl, hwf2⟩ := ih (stepBar cfg params fills true st r) hswf hmid.2
    exact ⟨hl.trans hsl, hwf2⟩

/-- Unfolding one loop iteration. -/
theorem runRows_cons (cfg : TraderConfig) (params : StrategyParams)
    (fills : ℕ → ℚ → Option ℚ) (capture : Bool) (st : BTState)
    (r : FeatRow) (rs : List FeatRow) :
    runRows cfg params fills capture st (r :: rs)
      = runRows cfg params fills capture (stepBar cfg params fills capture st r) rs := rfl

/-- The curve point a bar appends, in branch form. -/
theorem equityPhase_curve_eq (row : FeatRow) (st : BTState) :
    (equityPhase row st).equityCurve
      = st.equityCurve ++
        [max (if st.positionOpen = true ∧ st.entryPrice.isSome = true
              then st.balance + st.marginUsed + (st.entryPrice.getD 0 - row.Close) * st.qty
              else st.balance) 0] := rfl

/-- With a nonnegative balance entering exit evaluation, the bar appends to
the equity curve exactly the zero-floored raw equity of the post-bar state
at the bar close. -/
theorem stepBar_curve_last (cfg : TraderConfig) (params : StrategyParams)
    (fills : ℕ → ℚ → Option ℚ) (capture : Bool) (st : BTState) (row : FeatRow)
    (hmid : 0 ≤ (entryPhase cfg params fills st row).1.balance) :
    (stepBar cfg params fills capture st row).equityCurve
      = st.equityCurve
        ++ [max 0 (rawEquity (stepBar cfg params fills capture st row) row.Close)] := by
  obtain ⟨htr, habort, hrun, hquitflat, hcv⟩ := entryPhase_spec cfg params fills st row
  unfold stepBar
  by_cases hq : (entryPhase cfg params fills st row).2 = true
  · rw [if_pos hq]
    have hb : (entryPhase cfg params fills st row).1 = abortBar st := habort hq
    have hflat : st.positionOpen = false := hquitflat hq
    rw [hb]
    rw [hb] at hmid
    have hbal : (0 : ℚ) ≤ st.balance := hmid
    rw [rawEquity_eq_ite]
    simp [abortBar, hflat, max_eq_right hbal]
  · rw [if_neg hq]
    have hq' : (entryPhase cfg params fills st row).2 = false := by
      cases hqv : (entryPhase cfg params fills st row).2
      · rfl
      · exact absurd hqv hq
    have hcv' := hcv hq'
    rw [equityPhase_curve_eq, exitPhase_curve, hcv', rawEquity_eq_ite, max_comm]
    rfl

/-- Appending one bar never leaves the equity curve empty. -/
theorem stepBar_curve_ne_nil (cfg : TraderConfig) (params : StrategyParams)
    (fills : ℕ → ℚ → Option ℚ) (capture : Bool) (st : BTState) (row : FeatRow) :
    (stepBar cfg params fills capture st row).equityCurve ≠ [] := by
  obtain ⟨htr, habort, hrun, hquitflat, hcv⟩ := entryPhase_spec cfg params fills st row
  unfold stepBar
  by_cases hq : (entryPhase cfg params fills st row).2 = true
  · rw [if_pos hq, habort hq]
    simp [abortBar]
  · rw [if_neg hq]
    show (exitPhase cfg params capture row (entryPhase cfg params fills st row).1).equityCurve
        ++ [_] ≠ []
    simp

/-- Once nonempty, the equity curve stays nonempty. -/
theorem runRows_curve_ne_nil (cfg : TraderConfig) (params : StrategyParams)
    (fills : ℕ → ℚ → Option ℚ) (capture : Bool) :
    ∀ (rows : List FeatRow) (st : BTState), rows ≠ [] →
      (runRows cfg params fills capture st rows).equityCurve ≠ [] := by
  intro rows
  induction rows with
  | nil => intro st h; exact absurd rfl h
  | cons r rs ih =>
    intro st _
    cases rs with
    | nil =>
      simp only [runRows]
      exact stepBar_curve_ne_nil cfg params fills capture st r
    | cons b l =>
      simp only [runRows]
      exact ih (stepBar cfg params fills capture st r) (by simp)

/-- Along a run with nonnegative balances, the last equity-curve point is
the zero-floored raw equity of the final state at the last row's close. -/
theorem runRows_last_equity (cfg : TraderConfig) (params : StrategyParams)
    (fills : ℕ → ℚ → Option ℚ) (capture : Bool) :
    ∀ (rows : List FeatRow) (st : BTState), rows ≠ [] →
      midBalNonneg cfg params fills capture st rows = true →
      (runRows cfg params fills capture st rows).equityCurve.getLast?
        = some (max 0 (rawEquity (runRows cfg params fills capture st rows)
            ((rows.getLast?.getD default).Close))) := by
  intro rows
  induction rows with
  | nil => intro st h; exact absurd rfl h
  | cons r rs ih =>
    intro st _ hmid
    unfold midBalNonneg at hmid
    rw [Bool.and_eq_true] at hmid
    have h1 : 0 ≤ (entryPhase cfg params fills st r).1.balance :=
      of_decide_eq_true hmid.1
    cases rs with
    | nil =>
      simp only [runRows]
      rw [stepBar_curve_last cfg params fills capture st r h1]
      simp
    | cons b l =>
      rw [runRows_cons]
      rw [ih (stepBar cfg params fills capture st r) (by simp) hmid.2]
      rfl

/-- The final balance reported by the metrics: the starting balance on the
empty equity curve, the last curve point otherwise. -/
theorem metricsOf_final_balance (cfg : TraderConfig) (sharpeFn : List ℚ → ℚ)
    (st : BTState) :
    (metricsOf cfg sharpeFn st).final_balance
      = if st.equityCurve = [] then cfg.starting_balance
        else st.equityCurve.getLast?.getD 0 := by
  unfold metricsOf
  split_ifs <;> rfl

/-- C5 (counterexample).  On the three-bar fixture run (fee rate 0.001),
the single take-profit trade records a net PnL of 1473/190 while the final
equity minus the starting balance is 2889/380: the recorded PnL misses the
entry fee (0.15), so the claimed exact reconciliation fails.  (The last
bar's close is 19/2 and the run ends flat, so the unrealized term is 0.) -/
theorem c5_reconciliation_counterexample :
    ¬ (tradePnl (run_backtest_state fixCfg fixParams fixFills true fixBars)
        + unrealizedPnl (run_backtest_state fixCfg fixParams fixFills true fixBars) (19/2)
      = (run_backtest fixCfg fixParams fixFills (fun _ => 0) true fixBars).final_balance
        - fixCfg.starting_balance) := by
  with_unfolding_all decide

/-- C5 (amended).  For a completed backtest run with trade capture on, over
a series with at least one post-warmup bar, in which the balance entering
each bar's exit evaluation is nonnegative (so the margin-call balance reset
and the equity floor never truncate) and the final bar's raw equity is
nonnegative, and whose order fills never occur at price zero:
final equity − starting balance = sum of recorded trade net PnLs
+ unrealized value of a still-open position at the last bar − total entry
fees (the fee rate times the total entry notional of all positions opened,
which the recorded trade PnLs do not include). -/
theorem c5_reconciliation (cfg : TraderConfig) (params : StrategyParams)
    (fills : ℕ → ℚ → Option ℚ) (sharpeFn : List ℚ → ℚ) (bars : List Bar)
    (hf : ∀ i c, fills i c ≠ some 0)
    (hmid : midBalNonneg cfg params fills true (initState cfg)
      ((featRows bars params.highest_high_lookback).drop
        (params.highest_high_lookback + 1)) = true)
    (hne : (featRows bars params.highest_high_lookback).drop
      (params.highest_high_lookback + 1) ≠ [])
    (hpos : 0 ≤ rawEquity (run_backtest_state cfg params fills true bars)
      ((((featRows bars params.highest_high_lookback).drop
          (params.highest_high_lookback + 1)).getLast?.getD default).Close)) :
    (run_backtest cfg params fills sharpeFn true bars).final_balance
        - cfg.starting_balance
      = tradePnl (run_backtest_state cfg params fills true bars)
        + unrealizedPnl (run_backtest_state cfg params fills true bars)
          ((((featRows bars params.highest_high_lookback).drop
              (params.highest_high_lookback + 1)).getLast?.getD default).Close)
        - cfg.bybit_fee *
            (closedNotional (run_backtest_state cfg params fills true bars)
              + openNotional (run_backtest_state cfg params fills true bars)) := by
  have hwf0 : WFState (initState cfg) := by
    intro h
    simp [initState] at h
  have hled := runRows_ledger cfg params fills hf
    ((featRows bars params.highest_high_lookback).drop (params.highest_high_lookback + 1))
    (initState cfg) hwf0 hmid
  have hinit : ledger cfg (initState cfg) = cfg.starting_balance := by
    simp [ledger, initState, openMargin, openNotional, tradePnl, closedNotional, ratSum]
  have hledger : (run_backtest_state cfg params fills true bars).balance
      + openMargin (run_backtest_state cfg params fills true bars)
      - tradePnl (run_backtest_state cfg params fills true bars)
      + cfg.bybit_fee *
          (closedNotional (run_backtest_state cfg params fills true bars)
            + openNotional (run_backtest_state cfg params fills true bars))
      = cfg.starting_balance := by
    have h := hled.1.trans hinit
    simpa [ledger] using h
  have hlast : (run_backtest_state cfg params fills true bars).equityCurve.getLast?
      = some (max 0 (rawEquity (run_backtest_state cfg params fills true bars)
          ((((featRows bars params.highest_high_lookback).drop
              (params.highest_high_lookback + 1)).getLast?.getD default).Close))) :=
    runRows_last_equity cfg params fills true
      ((featRows bars params.highest_high_lookback).drop (params.highest_high_lookback + 1))
      (initState cfg) hne hmid
  have hcne : (run_backtest_state cfg params fills true bars).equityCurve ≠ [] :=
    runRows_curve_ne_nil cfg params fills true
      ((featRows bars params.highest_high_lookback).drop (params.highest_high_lookback + 1))
      (initState cfg) hne
  have hfb : (run_backtest cfg params fills sharpeFn true bars).final_balance
      = rawEquity (run_backtest_state cfg params fills true bars)
        ((((featRows bars params.highest_high_lookback).drop
            (params.highest_high_lookback + 1)).getLast?.getD default).Close) := by
    show (metricsOf cfg sharpeFn (run_backtest_state cfg params fills true bars)).final_balance = _
    rw [metricsOf_final_balance, if_neg hcne]
    rw [hlast, Option.getD_some, max_eq_right hpos]
  rw [hfb]
  unfold rawEquity
  linarith [hledger]

/-- Witness for `c5_reconciliation` on the fixture run: final equity minus
start (2889/380) equals the recorded PnL (1473/190) minus the entry fee
(0.001 × 150). -/
theorem c5_reconciliation_witness :
    (run_backtest fixCfg fixParams fixFills (fun _ => 0) true fixBars).final_balance
        - fixCfg.starting_balance
      = tradePnl (run_backtest_state fixCfg fixParams fixFills true fixBars)
        + unrealizedPnl (run_backtest_state fixCfg fixParams fixFills true fixBars)
          ((((featRows fixBars fixParams.highest_high_lookback).drop
              (fixParams.highest_high_lookback + 1)).getLast?.getD default).Close)
        - fixCfg.bybit_fee *
            (closedNotional (run_backtest_state fixCfg fixParams fixFills true fixBars)
              + openNotional (run_backtest_state fixCfg fixParams fixFills true fixBars)) :=
  c5_reconciliation fixCfg fixParams fixFills (fun _ => 0) fixBars
    (by
      intro i c hc
      unfold fixFills at hc
      split_ifs at hc with h
      exact h (Option.some.inj hc))
    (by with_unfolding_all decide)
    (by with_unfolding_all decide)
    (by with_unfolding_all decide)

end STMC
